import Mathlib

/-!
Shallow embedding of `rstfmt/rst_extras.py`, the extension-registration layer of
the rstfmt reformatter.

The Python module mutates docutils' global directive/role registries.  Here the
two registries are an explicit `RegState` value threaded through the
registration sequence, with `register_directive` / `register_canonical_role`
modelled as prepending to an association list (a prepend-then-first-match
lookup has exactly the overwrite semantics of a Python dict write).

Everything the module reads from its host environment (the sphinx domain class
hierarchy, `docutils.parsers.rst.directives._directive_registry`, the autodoc
documenter subclasses, the optional third-party packages and `importlib`) is a
parameter, collected in the `Env` structure; `register` is a function of that
environment.  The bodies of `generic_role`, `ReferenceRole.run`,
`_add_directive`, `_add_optional_directive`, `_subclasses` and `register` are
translated line by line from the source.
-/

namespace RstExtras

/-- The parsed invocation state a docutils directive instance carries when its
`run` method executes: the name it was invoked under, its arguments, options,
content lines and source line.  This is the data `_add_directive`'s synthesized
`run` wraps into the passthrough node. -/
structure ParseState where
  name : String
  arguments : List String
  options : List (String × String)
  content : List String
  lineno : Nat
deriving DecidableEq

/-- Document-tree nodes relevant to this module: the `directive` passthrough
node (wrapping the directive instance, i.e. its class-level `raw` flag and its
parsed invocation state), the `role` passthrough node, the `ref_role`
passthrough node, and an opaque stand-in for whatever semantic nodes an
original directive class would have produced. -/
inductive Node where
  | directiveNode (raw : Bool) (st : ParseState)
  | roleNode (rawtext : String) (text : String) (roleName : String)
  | refRoleNode (rawtext : String) (name : String) (hasExplicitTitle : Bool)
      (target : String) (title : String)
  | semantic (tag : String)
deriving DecidableEq

/-- A docutils directive class, as consumed by `_add_directive`: its class
name, the attributes that define how an invocation is parsed (argument counts,
content flag, declared option schema) and its semantic `run` method.  An option
validator is `String → Option String`; `none` models raising on a bad value,
and a name missing from the schema (`none` at lookup) models rejecting an
unknown option name. -/
structure DirClass where
  clsName : String
  requiredArguments : Nat
  optionalArguments : Nat
  hasContent : Bool
  optionSpec : String → Option (String → Option String)
  run : ParseState → List Node

/-- The subclass `_add_directive` synthesizes with
`type('rstfmt_' + cls.__name__, (cls,), namespace)`: it keeps the base class
and its parse-shaping attributes, and its namespace overrides `option_spec`,
`run` and `raw` (plus any explicit `attrs`). -/
structure SynthDirective where
  clsName : String
  base : DirClass
  requiredArguments : Nat
  optionalArguments : Nat
  hasContent : Bool
  option_spec : String → Option (String → Option String)
  run : ParseState → List Node
  raw : Bool

/-- Models `sphinx.ext.autodoc.directive.DummyOptionSpec` (an external sphinx
class used at `rst_extras.py:84`): its `__getitem__` returns `lambda x: x` for
every key, so every option name is accepted and every value is passed through
unchanged. -/
def DummyOptionSpec : String → Option (String → Option String) :=
  fun _ => some (fun x => some x)

/-- Models the host parser's option handling (docutils, external to this
repository): each supplied option name is looked up in the directive's
`option_spec`; a missing name or a failing validator is an error (`none`),
otherwise the validated values are collected. -/
def parseOptions (spec : String → Option (String → Option String)) :
    List (String × String) → Option (List (String × String))
  | [] => some []
  | (n, v) :: rest =>
    match spec n with
    | none => none
    | some validator =>
      match validator v with
      | none => none
      | some v2 => (parseOptions spec rest).map (fun tail => (n, v2) :: tail)

/-- The class construction inside `_add_directive` (rst_extras.py:83-89).  The
only key the source ever passes through `attrs` is `required_arguments`
(`_add_directive('role', Directive, attrs={'required_arguments': 1})`), so
`attrs` is modelled as an optional override of that attribute; `none` models
the Python default `attrs=None`. -/
def interceptDirective (cls : DirClass) (attrs : Option Nat) (raw : Bool) : SynthDirective :=
  { clsName := "rstfmt_" ++ cls.clsName
  , base := cls
  , requiredArguments :=
      match attrs with
      | some k => k
      | none => cls.requiredArguments
  , optionalArguments := cls.optionalArguments
  , hasContent := cls.hasContent
  , option_spec := DummyOptionSpec
  , run := fun st => [Node.directiveNode raw st]
  , raw := raw }

/-- A registered role callable.  `generic` is the module's `generic_role`
function; `refRole` is an instance of the module's `ReferenceRole` class. -/
inductive RoleEntry where
  | generic
  | refRole
deriving DecidableEq

/-- The two docutils global registries this module writes to.  Registration
prepends; lookup takes the first (most recent) match, which is dict-overwrite
semantics. -/
structure RegState where
  directives : List (String × SynthDirective)
  roles : List (String × RoleEntry)

/-- Models `docutils.parsers.rst.directives.register_directive`. -/
def register_directive (name : String) (d : SynthDirective) (s : RegState) : RegState :=
  { s with directives := (name, d) :: s.directives }

/-- Models `docutils.parsers.rst.roles.register_canonical_role`. -/
def register_canonical_role (name : String) (r : RoleEntry) (s : RegState) : RegState :=
  { s with roles := (name, r) :: s.roles }

/-- Lookup of a directive name in the registry (most recent registration
wins). -/
def findDirective (s : RegState) (n : String) : Option SynthDirective :=
  s.directives.lookup n

/-- Lookup of a role name in the registry (most recent registration wins). -/
def findRole (s : RegState) (n : String) : Option RoleEntry :=
  s.roles.lookup n

/-- The registry state before `register` runs, for concrete evaluations. -/
def emptyReg : RegState :=
  { directives := [], roles := [] }

/-- `_add_directive` (rst_extras.py:68-89): synthesize the passthrough subclass
and register it.  The Python keyword defaults are `attrs=None, raw=True`; call
sites below pass the defaults explicitly. -/
def add_directive (name : String) (cls : DirClass) (attrs : Option Nat) (raw : Bool)
    (s : RegState) : RegState :=
  register_directive name (interceptDirective cls attrs raw) s

/-- `role_aliases` (rst_extras.py:52-59). -/
def role_aliases : List (String × String) :=
  [("pep", "PEP"), ("pep-reference", "PEP"), ("rfc", "RFC"), ("rfc-reference", "RFC"),
   ("subscript", "sub"), ("superscript", "sup")]

/-- Models `docutils.utils.unescape(text, restore_backslashes=True)` (the only
form the source calls, at rst_extras.py:64): the NUL escape marker the reST
grammar substitutes for a backslash is restored to a backslash. -/
def unescapeRestoreBackslashes (text : String) : String :=
  String.mk (text.data.map (fun ch => if ch = Char.ofNat 0 then Char.ofNat 92 else ch))

/-- Models Python's built-in `str.lower`, as called at rst_extras.py:63:
lowercase every character (the alias-table keys are plain ASCII). -/
def strLower (s : String) : String :=
  String.mk (s.data.map Char.toLower)

/-- `generic_role` (rst_extras.py:62-65). -/
def generic_role (r : String) (rawtext : String) (text : String) :
    List Node × List Node :=
  let r := (role_aliases.lookup (strLower r)).getD r
  let text := unescapeRestoreBackslashes text
  ([Node.roleNode rawtext text r], [])

/-- The invocation state of a `sphinx.util.docutils.ReferenceRole` when its
`run` method executes. -/
structure RefRoleInvocation where
  rawtext : String
  name : String
  has_explicit_title : Bool
  target : String
  title : String

/-- `ReferenceRole.run` (rst_extras.py:40-49): wrap the invocation into a
`ref_role` passthrough node and return it as the sole result. -/
def referenceRoleRun (inv : RefRoleInvocation) : List Node × List Node :=
  ([Node.refRoleNode inv.rawtext inv.name inv.has_explicit_title inv.target inv.title], [])

/-- A role callable found in a sphinx domain's `roles` table; the only thing
`register` inspects about it is whether it is an instance of
`sphinx.util.docutils.ReferenceRole` (rst_extras.py:124). -/
structure RoleCallable where
  isReferenceRole : Bool
deriving DecidableEq

/-- A sphinx domain: its name and its `roles` / `directives` tables. -/
structure Domain where
  name : String
  roles : List (String × RoleCallable)
  directives : List (String × DirClass)

/-- A node of the runtime subclass hierarchy below `sphinx.domains.Domain`:
a domain class together with its direct subclasses. -/
inductive DomainTree where
  | node (d : Domain) (children : List DomainTree)

/-- `_subclasses` (rst_extras.py:103-106): for each direct subclass, yield it
and then recurse, in preorder.  The argument is the list of direct subclasses
of the root (`cls.__subclasses__()`); the root itself is not yielded. -/
def subclassesList : List DomainTree → List Domain
  | [] => []
  | DomainTree.node d cs :: rest => d :: (subclassesList cs ++ subclassesList rest)

/-- The four directive classes of the optional `sphinx_tabs.tabs` package
(rst_extras.py:187-195). -/
structure SphinxTabsPkg where
  tabsDirective : DirClass
  tabDirective : DirClass
  groupTabDirective : DirClass
  codeTabDirective : DirClass

/-- The two directive classes of the optional `esp_docs` package
(rst_extras.py:211-237). -/
structure EspDocsPkg where
  includeBuildFile : DirClass
  listFilter : DirClass

/-- The host environment `register` reads: the sphinx domain subclass
hierarchy, the directives of `sphinx.domains.python.PythonDomain`, the
docutils `Directive` base class, the resolved
`directives._directive_registry` (module import and `getattr` assumed to
succeed, as those are docutils' own modules), the fixed sphinx directive
classes registered at rst_extras.py:172-178, the `objtype`s of the
`autodoc.Documenter` subclasses together with `AutodocDirective`, the four
optional packages probed with `try import` (`none` models `ImportError`), and
`importlib` for `_add_optional_directive` (`modules m = none` models an
`ImportError` for module `m`; a located module is a map from attribute name to
the class, `none` modelling `getattr(module, _, None)` returning `None`). -/
structure Env where
  domainRoots : List DomainTree
  pyDirectives : List (String × DirClass)
  directiveBase : DirClass
  baseRegistry : List (String × DirClass)
  glossaryCls : DirClass
  literalIncludeCls : DirClass
  tocTreeCls : DirClass
  versionChangeCls : DirClass
  onlyCls : DirClass
  highlightCls : DirClass
  todoCls : DirClass
  autodocDirectiveCls : DirClass
  documenterObjtypes : List String
  sphinxTabs : Option SphinxTabsPkg
  sphinxClick : Option DirClass
  sphinxarg : Option DirClass
  espDocs : Option EspDocsPkg
  modules : String → Option (String → Option DirClass)

/-- `_add_optional_directive` (rst_extras.py:92-100): a failed import is a
silent skip; a located class (Python truthiness of a class is always true) is
registered with the defaults `attrs=None, raw=True`. -/
def add_optional_directive (directive_name : String) (directive_cls : String)
    (importlib_name : String) (env : Env) (s : RegState) : RegState :=
  match env.modules importlib_name with
  | none => s
  | some module =>
    match module directive_cls with
    | none => s
    | some cls => add_directive directive_name cls none true s

/-- The standard docutils roles registered first (rst_extras.py:110-118). -/
def standardRoles : List String :=
  ["math", "pep-reference", "rfc-reference", "subscript", "superscript"]

/-- rst_extras.py:110-121: register the standard roles with `generic_role`,
then `download` with a `ReferenceRole()` instance. -/
def stageStdRoles (s : RegState) : RegState :=
  register_canonical_role "download" RoleEntry.refRole
    (standardRoles.foldl (fun s r => register_canonical_role r RoleEntry.generic s) s)

/-- The body of the role loop at rst_extras.py:123-126: a role whose callable
is a `ReferenceRole` instance is registered under its bare name and its
domain-qualified name; any other role callable is skipped. -/
def registerDomainRole (domainName : String) (s : RegState) (p : String × RoleCallable) :
    RegState :=
  if p.2.isReferenceRole then
    register_canonical_role (domainName ++ ":" ++ p.1) RoleEntry.refRole
      (register_canonical_role p.1 RoleEntry.refRole s)
  else s

/-- The body of the domain loop at rst_extras.py:122-129: walk the domain's
roles, then register every directive under its domain-qualified name with the
defaults `attrs=None, raw=True`. -/
def registerDomain (s : RegState) (d : Domain) : RegState :=
  (d.directives.foldl (fun s p => add_directive (d.name ++ ":" ++ p.1) p.2 none true s)
    (d.roles.foldl (fun s p => registerDomainRole d.name s p) s))

/-- rst_extras.py:122-129: walk every transitive subclass of
`sphinx.domains.Domain`. -/
def stageDomains (env : Env) (s : RegState) : RegState :=
  (subclassesList env.domainRoots).foldl registerDomain s

/-- rst_extras.py:132-133: register the `py` domain's directives again without
qualification, with the defaults `attrs=None, raw=True`. -/
def stagePyDefault (env : Env) (s : RegState) : RegState :=
  env.pyDirectives.foldl (fun s p => add_directive p.1 p.2 none true s) s

/-- `non_raw_directives` (rst_extras.py:135-154). -/
def non_raw_directives : List String :=
  ["admonition", "attention", "caution", "danger", "error", "hint", "important",
   "note", "tip", "warning", "list-table", "tabs", "tab", "group-tab", "code-tab"]

/-- `exclude_directives` (rst_extras.py:163). -/
def exclude_directives : List String :=
  ["role"]

/-- rst_extras.py:162: the bespoke registration of the `role` directive, built
on the plain `Directive` base class with `attrs={'required_arguments': 1}` and
the default `raw=True`. -/
def stageRoleDirective (env : Env) (s : RegState) : RegState :=
  add_directive "role" env.directiveBase (some 1) true s

/-- The body of the base-registry loop at rst_extras.py:165-170. -/
def baseStep (s : RegState) (p : String × DirClass) : RegState :=
  if exclude_directives.contains p.1 then s
  else add_directive p.1 p.2 none (!(non_raw_directives.contains p.1)) s

/-- rst_extras.py:165-170: register every base-grammar directive except the
excluded ones, deciding `raw` by the static classification set. -/
def stageBaseRegistry (env : Env) (s : RegState) : RegState :=
  env.baseRegistry.foldl baseStep s

/-- rst_extras.py:172-178: the fixed sphinx directives. -/
def stageSphinxFixed (env : Env) (s : RegState) : RegState :=
  add_directive "todo" env.todoCls none true
    (add_directive "highlight" env.highlightCls none true
      (add_directive "only" env.onlyCls none true
        (add_directive "versionadded" env.versionChangeCls none true
          (add_directive "toctree" env.tocTreeCls none true
            (add_directive "literalinclude" env.literalIncludeCls none true
              (add_directive "glossary" env.glossaryCls none false s))))))

/-- rst_extras.py:180-182: for every `autodoc.Documenter` subclass whose
`objtype` is not `object`, register `auto` + objtype as non-raw.  The Python
source iterates `set(_subclasses(...))`; since every element registers the
same class and flag under a name determined by the objtype alone, the registry
contents do not depend on the set's iteration order, and the objtypes are kept
as a list. -/
def stageAutodoc (env : Env) (s : RegState) : RegState :=
  env.documenterObjtypes.foldl
    (fun s t =>
      if t == "object" then s
      else add_directive ("auto" ++ t) env.autodocDirectiveCls none false s) s

/-- The roles registered when `esp_docs` is present (rst_extras.py:217-234). -/
def espRoleNames : List String :=
  ["project", "project_file", "project_raw", "idf", "idf_file", "idf_raw",
   "component", "component_file", "component_raw",
   "example", "example_file", "example_raw", "link_to_translation"]

/-- rst_extras.py:187-195: the `sphinx_tabs.tabs` block. -/
def installSphinxTabs (env : Env) (s : RegState) : RegState :=
  match env.sphinxTabs with
  | none => s
  | some pkg =>
    add_directive "code-tab" pkg.codeTabDirective none true
      (add_directive "group-tab" pkg.groupTabDirective none false
        (add_directive "tab" pkg.tabDirective none false
          (add_directive "tabs" pkg.tabsDirective none false s)))

/-- rst_extras.py:197-202: the `sphinx_click` block. -/
def installSphinxClick (env : Env) (s : RegState) : RegState :=
  match env.sphinxClick with
  | none => s
  | some cls => add_directive "click" cls none true s

/-- rst_extras.py:204-209: the `sphinxarg.ext` block. -/
def installSphinxarg (env : Env) (s : RegState) : RegState :=
  match env.sphinxarg with
  | none => s
  | some cls => add_directive "argparse" cls none true s

/-- rst_extras.py:211-237: the `esp_docs` block. -/
def installEspDocs (env : Env) (s : RegState) : RegState :=
  match env.espDocs with
  | none => s
  | some pkg =>
    add_directive "list" pkg.listFilter none true
      (add_directive "include-build-file" pkg.includeBuildFile none true
        (espRoleNames.foldl (fun s r => register_canonical_role r RoleEntry.refRole s) s))

/-- rst_extras.py:184-250: the optional-package section, in source order. -/
def stageOptionalPkgs (env : Env) (s : RegState) : RegState :=
  add_optional_directive "doxygenfunction" "DoxygenFunctionDirective"
      "breathe.directives.function" env
    (add_optional_directive "doxygenstruct" "DoxygenClassDirective"
        "breathe.directives.class_like" env
      (add_optional_directive "wavedrom" "WavedromDirective" "sphinxcontrib.wavedrom" env
        (add_optional_directive "seqdiag" "Seqdiag" "sphinxcontrib.seqdiag" env
          (add_optional_directive "rackdiag" "Rackdiag" "sphinxcontrib.rackdiag" env
            (add_optional_directive "packetdiag" "Packetdiag" "sphinxcontrib.packetdiag" env
              (add_optional_directive "blockdiag" "Blockdiag" "sphinxcontrib.blockdiag" env
                (installEspDocs env
                  (installSphinxarg env
                    (installSphinxClick env
                      (installSphinxTabs env s))))))))))

/-- `register` (rst_extras.py:109-250): the full registration sequence, in
source order, starting from the given registry state. -/
def register (env : Env) (s : RegState) : RegState :=
  stageOptionalPkgs env
    (stageAutodoc env
      (stageSphinxFixed env
        (stageBaseRegistry env
          (stageRoleDirective env
            (stagePyDefault env
              (stageDomains env
                (stageStdRoles s)))))))

/-- The domain-qualified directive names registered by the domain walk
(rst_extras.py:128-129). -/
def domainDirectiveNames (env : Env) : List String :=
  (subclassesList env.domainRoots).flatMap
    (fun d => d.directives.map (fun p => d.name ++ ":" ++ p.1))

/-- The `auto` + objtype names registered at rst_extras.py:180-182. -/
def autoNames (env : Env) : List String :=
  env.documenterObjtypes.filterMap
    (fun t => if t == "object" then none else some ("auto" ++ t))

/-- The fixed sphinx directive names registered at rst_extras.py:172-178. -/
def sphinxFixedNames : List String :=
  ["glossary", "literalinclude", "toctree", "versionadded", "only", "highlight", "todo"]

/-- The directive names the `sphinx_tabs` block registers, given the package's
availability. -/
def tabsNames (env : Env) : List String :=
  match env.sphinxTabs with
  | none => []
  | some _ => ["tabs", "tab", "group-tab", "code-tab"]

/-- The directive names the `sphinx_click` block registers. -/
def clickNames (env : Env) : List String :=
  match env.sphinxClick with
  | none => []
  | some _ => ["click"]

/-- The directive names the `sphinxarg.ext` block registers. -/
def argparseNames (env : Env) : List String :=
  match env.sphinxarg with
  | none => []
  | some _ => ["argparse"]

/-- The directive names the `esp_docs` block registers. -/
def espDirectiveNames (env : Env) : List String :=
  match env.espDocs with
  | none => []
  | some _ => ["include-build-file", "list"]

/-- The directive names a single `_add_optional_directive` probe registers,
given the environment's import outcome. -/
def optProbeNames (directive_name : String) (directive_cls : String)
    (importlib_name : String) (env : Env) : List String :=
  match env.modules importlib_name with
  | none => []
  | some module =>
    match module directive_cls with
    | none => []
    | some _ => [directive_name]

/-- The directive names of the seven `_add_optional_directive` probes
(rst_extras.py:239-250). -/
def probeNames (env : Env) : List String :=
  optProbeNames "blockdiag" "Blockdiag" "sphinxcontrib.blockdiag" env ++
  optProbeNames "packetdiag" "Packetdiag" "sphinxcontrib.packetdiag" env ++
  optProbeNames "rackdiag" "Rackdiag" "sphinxcontrib.rackdiag" env ++
  optProbeNames "seqdiag" "Seqdiag" "sphinxcontrib.seqdiag" env ++
  optProbeNames "wavedrom" "WavedromDirective" "sphinxcontrib.wavedrom" env ++
  optProbeNames "doxygenstruct" "DoxygenClassDirective" "breathe.directives.class_like" env ++
  optProbeNames "doxygenfunction" "DoxygenFunctionDirective" "breathe.directives.function" env

/-- All directive names the optional-package section can register. -/
def optionalDirectiveNames (env : Env) : List String :=
  tabsNames env ++ clickNames env ++ argparseNames env ++ espDirectiveNames env ++
    probeNames env

/-- The directive names registered after the base-registry loop
(rst_extras.py:172-250). -/
def lateDirectiveNames (env : Env) : List String :=
  sphinxFixedNames ++ autoNames env ++ optionalDirectiveNames env

/-- The directive names the base-registry loop registers: every name of the
base grammar's registry except the excluded ones (rst_extras.py:165-170). -/
def baseLoopNames (env : Env) : List String :=
  (env.baseRegistry.map Prod.fst).filter (fun m => !(exclude_directives.contains m))

/-- Every directive name `register` can register, over all stages. -/
def allDirectiveNames (env : Env) : List String :=
  domainDirectiveNames env ++ env.pyDirectives.map Prod.fst ++ ["role"] ++
    baseLoopNames env ++ lateDirectiveNames env

/-- A placeholder semantic expansion for concrete directive classes. -/
def trivialRun : ParseState → List Node :=
  fun _ => [Node.semantic "expanded"]

/-- A concrete directive class for concrete environments. -/
def trivialCls : DirClass :=
  { clsName := "Trivial"
  , requiredArguments := 0
  , optionalArguments := 0
  , hasContent := true
  , optionSpec := fun _ => none
  , run := trivialRun }

/-- A minimal host environment: no domains, empty base registry, no optional
packages. -/
def baseEnv : Env :=
  { domainRoots := []
  , pyDirectives := []
  , directiveBase := trivialCls
  , baseRegistry := []
  , glossaryCls := trivialCls
  , literalIncludeCls := trivialCls
  , tocTreeCls := trivialCls
  , versionChangeCls := trivialCls
  , onlyCls := trivialCls
  , highlightCls := trivialCls
  , todoCls := trivialCls
  , autodocDirectiveCls := trivialCls
  , documenterObjtypes := []
  , sphinxTabs := none
  , sphinxClick := none
  , sphinxarg := none
  , espDocs := none
  , modules := fun _ => none }

/-- A domain whose single role callable is not a `ReferenceRole` instance. -/
def plainRoleDomain : Domain :=
  { name := "dom"
  , roles := [("plainrole", { isReferenceRole := false })]
  , directives := [] }

/-- An environment whose domain hierarchy contains `plainRoleDomain`. -/
def envPlainRole : Env :=
  { baseEnv with domainRoots := [DomainTree.node plainRoleDomain []] }

/-- A domain with one reference-resolving role and one directive. -/
def walkDomain : Domain :=
  { name := "dom"
  , roles := [("xref", { isReferenceRole := true })]
  , directives := [("obj", trivialCls)] }

/-- An environment whose domain hierarchy contains `walkDomain`. -/
def envWalk : Env :=
  { baseEnv with domainRoots := [DomainTree.node walkDomain []] }

/-- An environment whose base-grammar registry contains the `note`
directive. -/
def envNote : Env :=
  { baseEnv with baseRegistry := [("note", trivialCls)] }

/-- A located `sphinxcontrib.blockdiag` module exposing the `Blockdiag`
class. -/
def blockdiagModule : String → Option DirClass :=
  fun c => if c == "Blockdiag" then some trivialCls else none

/-- An environment in which only the `sphinxcontrib.blockdiag` import
succeeds. -/
def envBlockdiag : Env :=
  { baseEnv with
      modules := fun m => if m == "sphinxcontrib.blockdiag" then some blockdiagModule else none }

/-- A concrete parsed invocation, with an option name no declared schema would
recognize. -/
def sampleState : ParseState :=
  { name := "note"
  , arguments := []
  , options := [("unknown-opt", "value")]
  , content := ["some *text*"]
  , lineno := 3 }

/-- The seven `(directive_name, directive_cls, importlib_name)` probe triples
of rst_extras.py:239-250, in source order. -/
def probeTriples : List (String × String × String) :=
  [("blockdiag", "Blockdiag", "sphinxcontrib.blockdiag"),
   ("packetdiag", "Packetdiag", "sphinxcontrib.packetdiag"),
   ("rackdiag", "Rackdiag", "sphinxcontrib.rackdiag"),
   ("seqdiag", "Seqdiag", "sphinxcontrib.seqdiag"),
   ("wavedrom", "WavedromDirective", "sphinxcontrib.wavedrom"),
   ("doxygenstruct", "DoxygenClassDirective", "breathe.directives.class_like"),
   ("doxygenfunction", "DoxygenFunctionDirective", "breathe.directives.function")]

/-- A concrete `sphinx_tabs` package. -/
def fullTabsPkg : SphinxTabsPkg :=
  { tabsDirective := trivialCls
  , tabDirective := trivialCls
  , groupTabDirective := trivialCls
  , codeTabDirective := trivialCls }

/-- A concrete `esp_docs` package. -/
def fullEspPkg : EspDocsPkg :=
  { includeBuildFile := trivialCls
  , listFilter := trivialCls }

/-- An environment in which every optional package is present and every import
probe succeeds and locates its class. -/
def envAllOptional : Env :=
  { baseEnv with
      sphinxTabs := some fullTabsPkg
    , sphinxClick := some trivialCls
    , sphinxarg := some trivialCls
    , espDocs := some fullEspPkg
    , modules := fun _ => some (fun _ => some trivialCls) }

/-! ## Registry lookup lemmas -/

theorem findDirective_register_directive (m n : String) (d : SynthDirective) (s : RegState) :
    findDirective (register_directive m d s) n =
      if n == m then some d else findDirective s n := by
  cases h : n == m <;> simp [findDirective, register_directive, List.lookup, h]

theorem findDirective_add (m n : String) (cls : DirClass) (attrs : Option Nat) (raw : Bool)
    (s : RegState) :
    findDirective (add_directive m cls attrs raw s) n =
      if n == m then some (interceptDirective cls attrs raw) else findDirective s n :=
  findDirective_register_directive m n (interceptDirective cls attrs raw) s

theorem findRole_register (m n : String) (r : RoleEntry) (s : RegState) :
    findRole (register_canonical_role m r s) n =
      if n == m then some r else findRole s n := by
  cases h : n == m <;> simp [findRole, register_canonical_role, List.lookup, h]

theorem findRole_add (m : String) (cls : DirClass) (attrs : Option Nat) (raw : Bool)
    (s : RegState) (n : String) :
    findRole (add_directive m cls attrs raw s) n = findRole s n := rfl

theorem findDirective_register_role (m : String) (r : RoleEntry) (s : RegState) (n : String) :
    findDirective (register_canonical_role m r s) n = findDirective s n := rfl

/-! ## Fold helpers -/

theorem foldl_proj_eq {σ α : Type _} {β : Type _} (g : σ → β) (f : σ → α → σ) (l : List α) :
    (∀ s a, a ∈ l → g (f s a) = g s) → ∀ s, g (l.foldl f s) = g s := by
  induction l with
  | nil => intro _ s; rfl
  | cons x xs ih =>
    intro h s
    rw [List.foldl_cons, ih (fun s a ha => h s a (List.mem_cons_of_mem x ha)) (f s x),
      h s x (List.mem_cons_self x xs)]

theorem foldl_preserve {σ α : Type _} (P : σ → Prop) (f : σ → α → σ) (l : List α) :
    (∀ s a, a ∈ l → P s → P (f s a)) → ∀ s, P s → P (l.foldl f s) := by
  induction l with
  | nil => intro _ s hs; exact hs
  | cons x xs ih =>
    intro h s hs
    exact ih (fun s a ha => h s a (List.mem_cons_of_mem x ha)) (f s x)
      (h s x (List.mem_cons_self x xs) hs)

theorem foldl_establish {σ α : Type _} (P : σ → Prop) (f : σ → α → σ) (l : List α) (a : α) :
    (∀ s b, b ∈ l → P s → P (f s b)) → (∀ s, P (f s a)) → a ∈ l →
      ∀ s, P (l.foldl f s) := by
  induction l with
  | nil => intro _ _ ha; exact absurd ha (List.not_mem_nil a)
  | cons x xs ih =>
    intro hpres hest ha s
    rw [List.foldl_cons]
    rcases List.mem_cons.mp ha with h | h
    · subst h
      exact foldl_preserve P f xs (fun s b hb => hpres s b (List.mem_cons_of_mem a hb))
        (f s a) (hest s)
    · exact ih (fun s b hb => hpres s b (List.mem_cons_of_mem x hb)) hest h (f s x)

/-! ## Stage lemmas: names a stage does not register are looked up unchanged -/

theorem stdRoles_directives (s : RegState) (n : String) :
    findDirective (stageStdRoles s) n = findDirective s n := by
  unfold stageStdRoles
  rw [findDirective_register_role]
  exact foldl_proj_eq (fun s => findDirective s n) _ standardRoles (fun s a _ => rfl) s

theorem directives_registerDomainRole (dn : String) (s : RegState) (p : String × RoleCallable) :
    (registerDomainRole dn s p).directives = s.directives := by
  unfold registerDomainRole
  split <;> rfl

theorem registerDomain_findDirective_ne (d : Domain) (n : String)
    (hn : ∀ p ∈ d.directives, d.name ++ ":" ++ p.1 ≠ n) (s : RegState) :
    findDirective (registerDomain s d) n = findDirective s n := by
  unfold registerDomain
  have h1 : ∀ s0 : RegState,
      findDirective
        (d.directives.foldl (fun s p => add_directive (d.name ++ ":" ++ p.1) p.2 none true s) s0)
        n = findDirective s0 n := by
    intro s0
    refine foldl_proj_eq (fun s => findDirective s n) _ d.directives (fun s p hp => ?_) s0
    dsimp only
    rw [findDirective_add]
    have hne : (n == d.name ++ ":" ++ p.1) = false :=
      beq_eq_false_iff_ne.mpr (Ne.symm (hn p hp))
    rw [hne]
    simp
  rw [h1]
  exact foldl_proj_eq (fun s => findDirective s n) _ d.roles
    (fun s p _ => by simp [findDirective, directives_registerDomainRole]) s

theorem stageDomains_untouched (env : Env) (n : String)
    (hn : n ∉ domainDirectiveNames env) (s : RegState) :
    findDirective (stageDomains env s) n = findDirective s n := by
  unfold stageDomains
  refine foldl_proj_eq (fun s => findDirective s n) registerDomain _ (fun s d hd => ?_) s
  refine registerDomain_findDirective_ne d n (fun p hp h => hn ?_) s
  exact List.mem_flatMap.mpr ⟨d, hd, List.mem_map.mpr ⟨p, hp, h⟩⟩

theorem stagePyDefault_untouched (env : Env) (n : String)
    (hn : n ∉ env.pyDirectives.map Prod.fst) (s : RegState) :
    findDirective (stagePyDefault env s) n = findDirective s n := by
  unfold stagePyDefault
  refine foldl_proj_eq (fun s => findDirective s n) _ _ (fun s p hp => ?_) s
  dsimp only
  rw [findDirective_add]
  have hne : (n == p.1) = false :=
    beq_eq_false_iff_ne.mpr (fun h => hn (List.mem_map.mpr ⟨p, hp, h.symm⟩))
  rw [hne]
  simp

theorem stageRoleDirective_untouched (env : Env) (n : String) (hn : n ≠ "role")
    (s : RegState) :
    findDirective (stageRoleDirective env s) n = findDirective s n := by
  unfold stageRoleDirective
  rw [findDirective_add, beq_eq_false_iff_ne.mpr hn]
  simp

theorem baseFold_untouched (l : List (String × DirClass)) (n : String)
    (hn : n ∉ (l.map Prod.fst).filter (fun m => !(exclude_directives.contains m)))
    (s : RegState) :
    findDirective (l.foldl baseStep s) n = findDirective s n := by
  refine foldl_proj_eq (fun s => findDirective s n) baseStep _ (fun s p hp => ?_) s
  by_cases hexc : p.1 ∈ exclude_directives
  · simp [baseStep, hexc]
  · have hne : (n == p.1) = false := by
      refine beq_eq_false_iff_ne.mpr (fun h => hn ?_)
      exact List.mem_filter.mpr ⟨List.mem_map.mpr ⟨p, hp, h.symm⟩, by simp [h, hexc]⟩
    simp [baseStep, hexc, findDirective_add, hne]

theorem stageBaseRegistry_untouched (env : Env) (n : String)
    (hn : n ∉ baseLoopNames env) (s : RegState) :
    findDirective (stageBaseRegistry env s) n = findDirective s n :=
  baseFold_untouched env.baseRegistry n hn s

theorem stageSphinxFixed_untouched (env : Env) (n : String)
    (hn : n ∉ sphinxFixedNames) (s : RegState) :
    findDirective (stageSphinxFixed env s) n = findDirective s n := by
  simp only [sphinxFixedNames, List.mem_cons, List.not_mem_nil, or_false, not_or] at hn
  obtain ⟨h1, h2, h3, h4, h5, h6, h7⟩ := hn
  simp [stageSphinxFixed, findDirective_add,
    beq_eq_false_iff_ne.mpr h1, beq_eq_false_iff_ne.mpr h2, beq_eq_false_iff_ne.mpr h3,
    beq_eq_false_iff_ne.mpr h4, beq_eq_false_iff_ne.mpr h5, beq_eq_false_iff_ne.mpr h6,
    beq_eq_false_iff_ne.mpr h7]

theorem stageAutodoc_untouched (env : Env) (n : String)
    (hn : n ∉ autoNames env) (s : RegState) :
    findDirective (stageAutodoc env s) n = findDirective s n := by
  unfold stageAutodoc
  refine foldl_proj_eq (fun s => findDirective s n) _ _ (fun s t ht => ?_) s
  by_cases hobj : (t == "object") = true
  · simp [hobj]
  · have hne : (n == "auto" ++ t) = false := by
      refine beq_eq_false_iff_ne.mpr (fun h => hn ?_)
      exact List.mem_filterMap.mpr ⟨t, ht, by simp [hobj, h.symm]⟩
    simp [hobj, findDirective_add, hne]

theorem installSphinxTabs_untouched (env : Env) (n : String)
    (hn : n ∉ tabsNames env) (s : RegState) :
    findDirective (installSphinxTabs env s) n = findDirective s n := by
  cases htabs : env.sphinxTabs with
  | none => simp [installSphinxTabs, htabs]
  | some pkg =>
    simp only [tabsNames, htabs, List.mem_cons, List.not_mem_nil, or_false, not_or] at hn
    obtain ⟨h1, h2, h3, h4⟩ := hn
    simp [installSphinxTabs, htabs, findDirective_add,
      beq_eq_false_iff_ne.mpr h1, beq_eq_false_iff_ne.mpr h2,
      beq_eq_false_iff_ne.mpr h3, beq_eq_false_iff_ne.mpr h4]

theorem installSphinxClick_untouched (env : Env) (n : String)
    (hn : n ∉ clickNames env) (s : RegState) :
    findDirective (installSphinxClick env s) n = findDirective s n := by
  cases hclick : env.sphinxClick with
  | none => simp [installSphinxClick, hclick]
  | some cls =>
    simp only [clickNames, hclick, List.mem_cons, List.not_mem_nil, or_false, not_or] at hn
    simp [installSphinxClick, hclick, findDirective_add, beq_eq_false_iff_ne.mpr hn]

theorem installSphinxarg_untouched (env : Env) (n : String)
    (hn : n ∉ argparseNames env) (s : RegState) :
    findDirective (installSphinxarg env s) n = findDirective s n := by
  cases harg : env.sphinxarg with
  | none => simp [installSphinxarg, harg]
  | some cls =>
    simp only [argparseNames, harg, List.mem_cons, List.not_mem_nil, or_false, not_or] at hn
    simp [installSphinxarg, harg, findDirective_add, beq_eq_false_iff_ne.mpr hn]

theorem installEspDocs_untouched (env : Env) (n : String)
    (hn : n ∉ espDirectiveNames env) (s : RegState) :
    findDirective (installEspDocs env s) n = findDirective s n := by
  cases hesp : env.espDocs with
  | none => simp [installEspDocs, hesp]
  | some pkg =>
    simp only [espDirectiveNames, hesp, List.mem_cons, List.not_mem_nil, or_false,
      not_or] at hn
    obtain ⟨h1, h2⟩ := hn
    have hroles : ∀ s0 : RegState,
        findDirective
          (espRoleNames.foldl (fun s r => register_canonical_role r RoleEntry.refRole s) s0) n =
          findDirective s0 n :=
      fun s0 => foldl_proj_eq (fun s => findDirective s n) _ espRoleNames (fun s r _ => rfl) s0
    simp [installEspDocs, hesp, findDirective_add,
      beq_eq_false_iff_ne.mpr h1, beq_eq_false_iff_ne.mpr h2, hroles]

theorem add_optional_untouched (dn c m : String) (env : Env) (n : String)
    (hn : n ∉ optProbeNames dn c m env) (s : RegState) :
    findDirective (add_optional_directive dn c m env s) n = findDirective s n := by
  cases h1 : env.modules m with
  | none => simp [add_optional_directive, h1]
  | some module =>
    cases h2 : module c with
    | none => simp [add_optional_directive, h1, h2]
    | some cls =>
      have hne : n ≠ dn := by
        simp only [optProbeNames, h1, h2, List.mem_cons, List.not_mem_nil, or_false] at hn
        exact hn
      simp [add_optional_directive, h1, h2, findDirective_add, beq_eq_false_iff_ne.mpr hne]

theorem stageOptionalPkgs_untouched (env : Env) (n : String)
    (hn : n ∉ optionalDirectiveNames env) (s : RegState) :
    findDirective (stageOptionalPkgs env s) n = findDirective s n := by
  simp only [optionalDirectiveNames, probeNames, List.mem_append, not_or, and_assoc] at hn
  obtain ⟨htabs, hclick, harg, hesp, hp1, hp2, hp3, hp4, hp5, hp6, hp7⟩ := hn
  unfold stageOptionalPkgs
  rw [add_optional_untouched _ _ _ _ _ hp7, add_optional_untouched _ _ _ _ _ hp6,
    add_optional_untouched _ _ _ _ _ hp5, add_optional_untouched _ _ _ _ _ hp4,
    add_optional_untouched _ _ _ _ _ hp3, add_optional_untouched _ _ _ _ _ hp2,
    add_optional_untouched _ _ _ _ _ hp1, installEspDocs_untouched _ _ hesp,
    installSphinxarg_untouched _ _ harg, installSphinxClick_untouched _ _ hclick,
    installSphinxTabs_untouched _ _ htabs]

/-! ## Stage lemmas: a registered directive name stays registered -/

theorem isSome_add (m : String) (cls : DirClass) (attrs : Option Nat) (raw : Bool)
    (s : RegState) (n : String) (h : (findDirective s n).isSome = true) :
    (findDirective (add_directive m cls attrs raw s) n).isSome = true := by
  rw [findDirective_add]
  cases hb : n == m <;> simp [h]

theorem isSome_registerDomain (d : Domain) (s : RegState) (n : String)
    (h : (findDirective s n).isSome = true) :
    (findDirective (registerDomain s d) n).isSome = true := by
  unfold registerDomain
  refine foldl_preserve (fun s => (findDirective s n).isSome = true) _ d.directives
    (fun s p _ hp => isSome_add _ _ _ _ _ _ hp) _ ?_
  refine foldl_preserve (fun s => (findDirective s n).isSome = true) _ d.roles
    (fun s p _ hp => ?_) s h
  have heq : findDirective (registerDomainRole d.name s p) n = findDirective s n := by
    simp [findDirective, directives_registerDomainRole]
  dsimp only
  rw [heq]
  exact hp

theorem isSome_stagePyDefault (env : Env) (s : RegState) (n : String)
    (h : (findDirective s n).isSome = true) :
    (findDirective (stagePyDefault env s) n).isSome = true :=
  foldl_preserve (fun s => (findDirective s n).isSome = true) _ env.pyDirectives
    (fun s p _ hp => isSome_add _ _ _ _ _ _ hp) s h

theorem isSome_stageRoleDirective (env : Env) (s : RegState) (n : String)
    (h : (findDirective s n).isSome = true) :
    (findDirective (stageRoleDirective env s) n).isSome = true :=
  isSome_add _ _ _ _ _ _ h

theorem isSome_stageBaseRegistry (env : Env) (s : RegState) (n : String)
    (h : (findDirective s n).isSome = true) :
    (findDirective (stageBaseRegistry env s) n).isSome = true := by
  refine foldl_preserve (fun s => (findDirective s n).isSome = true) baseStep env.baseRegistry
    (fun s p _ hp => ?_) s h
  unfold baseStep
  split
  · exact hp
  · exact isSome_add _ _ _ _ _ _ hp

theorem isSome_stageSphinxFixed (env : Env) (s : RegState) (n : String)
    (h : (findDirective s n).isSome = true) :
    (findDirective (stageSphinxFixed env s) n).isSome = true := by
  unfold stageSphinxFixed
  exact isSome_add _ _ _ _ _ _ (isSome_add _ _ _ _ _ _ (isSome_add _ _ _ _ _ _
    (isSome_add _ _ _ _ _ _ (isSome_add _ _ _ _ _ _ (isSome_add _ _ _ _ _ _
      (isSome_add _ _ _ _ _ _ h))))))

theorem isSome_stageAutodoc (env : Env) (s : RegState) (n : String)
    (h : (findDirective s n).isSome = true) :
    (findDirective (stageAutodoc env s) n).isSome = true := by
  refine foldl_preserve (fun s => (findDirective s n).isSome = true) _ env.documenterObjtypes
    (fun s t _ hp => ?_) s h
  dsimp only
  split
  · exact hp
  · exact isSome_add _ _ _ _ _ _ hp

theorem isSome_add_optional (dn c m : String) (env : Env) (s : RegState) (n : String)
    (h : (findDirective s n).isSome = true) :
    (findDirective (add_optional_directive dn c m env s) n).isSome = true := by
  cases h1 : env.modules m with
  | none => simpa [add_optional_directive, h1] using h
  | some module =>
    cases h2 : module c with
    | none => simpa [add_optional_directive, h1, h2] using h
    | some cls =>
      simp only [add_optional_directive, h1, h2]
      exact isSome_add _ _ _ _ _ _ h

theorem isSome_installSphinxTabs (env : Env) (s : RegState) (n : String)
    (h : (findDirective s n).isSome = true) :
    (findDirective (installSphinxTabs env s) n).isSome = true := by
  cases htabs : env.sphinxTabs with
  | none => simpa [installSphinxTabs, htabs] using h
  | some pkg =>
    simp only [installSphinxTabs, htabs]
    exact isSome_add _ _ _ _ _ _ (isSome_add _ _ _ _ _ _ (isSome_add _ _ _ _ _ _
      (isSome_add _ _ _ _ _ _ h)))

theorem isSome_installSphinxClick (env : Env) (s : RegState) (n : String)
    (h : (findDirective s n).isSome = true) :
    (findDirective (installSphinxClick env s) n).isSome = true := by
  cases hclick : env.sphinxClick with
  | none => simpa [installSphinxClick, hclick] using h
  | some cls =>
    simp only [installSphinxClick, hclick]
    exact isSome_add _ _ _ _ _ _ h

theorem isSome_installSphinxarg (env : Env) (s : RegState) (n : String)
    (h : (findDirective s n).isSome = true) :
    (findDirective (installSphinxarg env s) n).isSome = true := by
  cases harg : env.sphinxarg with
  | none => simpa [installSphinxarg, harg] using h
  | some cls =>
    simp only [installSphinxarg, harg]
    exact isSome_add _ _ _ _ _ _ h

theorem isSome_installEspDocs (env : Env) (s : RegState) (n : String)
    (h : (findDirective s n).isSome = true) :
    (findDirective (installEspDocs env s) n).isSome = true := by
  cases hesp : env.espDocs with
  | none => simpa [installEspDocs, hesp] using h
  | some pkg =>
    simp only [installEspDocs, hesp]
    refine isSome_add _ _ _ _ _ _ (isSome_add _ _ _ _ _ _ ?_)
    exact foldl_preserve (fun s => (findDirective s n).isSome = true) _ espRoleNames
      (fun s r _ hp => hp) s h

theorem isSome_stageOptionalPkgs (env : Env) (s : RegState) (n : String)
    (h : (findDirective s n).isSome = true) :
    (findDirective (stageOptionalPkgs env s) n).isSome = true := by
  unfold stageOptionalPkgs
  exact isSome_add_optional _ _ _ _ _ _ (isSome_add_optional _ _ _ _ _ _
    (isSome_add_optional _ _ _ _ _ _ (isSome_add_optional _ _ _ _ _ _
      (isSome_add_optional _ _ _ _ _ _ (isSome_add_optional _ _ _ _ _ _
        (isSome_add_optional _ _ _ _ _ _ (isSome_installEspDocs _ _ _
          (isSome_installSphinxarg _ _ _ (isSome_installSphinxClick _ _ _
            (isSome_installSphinxTabs _ _ _ h))))))))))

/-- A directive name registered by the time the domain walk finishes is still
registered after the remaining six stages of `register`. -/
theorem isSome_afterDomains (env : Env) (s : RegState) (n : String)
    (h : (findDirective s n).isSome = true) :
    (findDirective
      (stageOptionalPkgs env (stageAutodoc env (stageSphinxFixed env
        (stageBaseRegistry env (stageRoleDirective env (stagePyDefault env s)))))) n).isSome =
      true :=
  isSome_stageOptionalPkgs _ _ _ (isSome_stageAutodoc _ _ _ (isSome_stageSphinxFixed _ _ _
    (isSome_stageBaseRegistry _ _ _ (isSome_stageRoleDirective _ _ _
      (isSome_stagePyDefault _ _ _ h)))))

/-! ## Stage lemmas: the role registry -/

theorem roles_add (m : String) (cls : DirClass) (attrs : Option Nat) (raw : Bool)
    (s : RegState) :
    (add_directive m cls attrs raw s).roles = s.roles := rfl

theorem roles_stagePyDefault (env : Env) (s : RegState) :
    (stagePyDefault env s).roles = s.roles := by
  unfold stagePyDefault
  exact foldl_proj_eq RegState.roles (fun s p => add_directive p.1 p.2 none true s)
    env.pyDirectives (fun _ _ _ => rfl) s

theorem roles_stageRoleDirective (env : Env) (s : RegState) :
    (stageRoleDirective env s).roles = s.roles := rfl

theorem roles_stageBaseRegistry (env : Env) (s : RegState) :
    (stageBaseRegistry env s).roles = s.roles :=
  foldl_proj_eq RegState.roles baseStep env.baseRegistry
    (fun s p _ => by unfold baseStep; split <;> rfl) s

theorem roles_stageSphinxFixed (env : Env) (s : RegState) :
    (stageSphinxFixed env s).roles = s.roles := rfl

theorem roles_stageAutodoc (env : Env) (s : RegState) :
    (stageAutodoc env s).roles = s.roles := by
  unfold stageAutodoc
  refine foldl_proj_eq RegState.roles _ env.documenterObjtypes (fun s t _ => ?_) s
  split <;> rfl

theorem roles_add_optional (dn c m : String) (env : Env) (s : RegState) :
    (add_optional_directive dn c m env s).roles = s.roles := by
  cases h1 : env.modules m with
  | none => simp [add_optional_directive, h1]
  | some module =>
    cases h2 : module c with
    | none => simp [add_optional_directive, h1, h2]
    | some cls => simp [add_optional_directive, h1, h2, roles_add]

theorem roles_installSphinxTabs (env : Env) (s : RegState) :
    (installSphinxTabs env s).roles = s.roles := by
  cases htabs : env.sphinxTabs with
  | none => simp [installSphinxTabs, htabs]
  | some pkg => simp [installSphinxTabs, htabs, roles_add]

theorem roles_installSphinxClick (env : Env) (s : RegState) :
    (installSphinxClick env s).roles = s.roles := by
  cases hclick : env.sphinxClick with
  | none => simp [installSphinxClick, hclick]
  | some cls => simp [installSphinxClick, hclick, roles_add]

theorem roles_installSphinxarg (env : Env) (s : RegState) :
    (installSphinxarg env s).roles = s.roles := by
  cases harg : env.sphinxarg with
  | none => simp [installSphinxarg, harg]
  | some cls => simp [installSphinxarg, harg, roles_add]

theorem refRole_pres_register (m n : String) (s : RegState)
    (h : findRole s n = some RoleEntry.refRole) :
    findRole (register_canonical_role m RoleEntry.refRole s) n = some RoleEntry.refRole := by
  rw [findRole_register]
  cases hb : n == m <;> simp [h]

theorem refRole_pres_domainRole (dn : String) (p : String × RoleCallable) (s : RegState)
    (n : String) (h : findRole s n = some RoleEntry.refRole) :
    findRole (registerDomainRole dn s p) n = some RoleEntry.refRole := by
  unfold registerDomainRole
  split
  · exact refRole_pres_register _ _ _ (refRole_pres_register _ _ _ h)
  · exact h

theorem refRole_pres_registerDomain (d : Domain) (s : RegState) (n : String)
    (h : findRole s n = some RoleEntry.refRole) :
    findRole (registerDomain s d) n = some RoleEntry.refRole := by
  unfold registerDomain
  have h2 : ∀ s0 : RegState,
      findRole
        (d.directives.foldl (fun s p => add_directive (d.name ++ ":" ++ p.1) p.2 none true s) s0)
        n = findRole s0 n :=
    fun s0 => foldl_proj_eq (fun s => findRole s n)
      (fun s p => add_directive (d.name ++ ":" ++ p.1) p.2 none true s) d.directives
      (fun _ _ _ => rfl) s0
  rw [h2]
  exact foldl_preserve (fun s => findRole s n = some RoleEntry.refRole) _ d.roles
    (fun s p _ hp => refRole_pres_domainRole d.name p s n hp) s h

theorem refRole_est_domainRole (dn nm : String) (rc : RoleCallable)
    (href : rc.isReferenceRole = true) (s : RegState) :
    findRole (registerDomainRole dn s (nm, rc)) nm = some RoleEntry.refRole ∧
    findRole (registerDomainRole dn s (nm, rc)) (dn ++ ":" ++ nm) = some RoleEntry.refRole := by
  unfold registerDomainRole
  simp only [href, if_true]
  constructor
  · rw [findRole_register]
    cases hb : nm == dn ++ ":" ++ nm
    · rw [findRole_register]
      simp
    · simp
  · rw [findRole_register]
    simp

theorem refRole_pres_installEspDocs (env : Env) (s : RegState) (n : String)
    (h : findRole s n = some RoleEntry.refRole) :
    findRole (installEspDocs env s) n = some RoleEntry.refRole := by
  cases hesp : env.espDocs with
  | none => simpa [installEspDocs, hesp] using h
  | some pkg =>
    simp only [installEspDocs, hesp]
    rw [findRole_add, findRole_add]
    exact foldl_preserve (fun s => findRole s n = some RoleEntry.refRole) _ espRoleNames
      (fun s r _ hp => refRole_pres_register r n s hp) s h

theorem refRole_pres_stageOptionalPkgs (env : Env) (s : RegState) (n : String)
    (h : findRole s n = some RoleEntry.refRole) :
    findRole (stageOptionalPkgs env s) n = some RoleEntry.refRole := by
  unfold stageOptionalPkgs
  have hopt : ∀ (dn c m : String) (s0 : RegState),
      findRole (add_optional_directive dn c m env s0) n = findRole s0 n :=
    fun dn c m s0 => by simp [findRole, roles_add_optional]
  rw [hopt, hopt, hopt, hopt, hopt, hopt, hopt]
  refine refRole_pres_installEspDocs env _ n ?_
  simp only [findRole, roles_installSphinxarg, roles_installSphinxClick,
    roles_installSphinxTabs]
  exact h

/-- A role of a walked domain whose callable is a `ReferenceRole` instance is
registered, as a `ReferenceRole` wrapper, under both its bare and its
domain-qualified name in the final registry. -/
theorem refRole_registered (env : Env) (s : RegState) (d : Domain) (nm : String)
    (rc : RoleCallable) (hd : d ∈ subclassesList env.domainRoots) (hr : (nm, rc) ∈ d.roles)
    (href : rc.isReferenceRole = true) :
    findRole (register env s) nm = some RoleEntry.refRole ∧
    findRole (register env s) (d.name ++ ":" ++ nm) = some RoleEntry.refRole := by
  have hdom : ∀ s0 : RegState,
      findRole (stageDomains env s0) nm = some RoleEntry.refRole ∧
      findRole (stageDomains env s0) (d.name ++ ":" ++ nm) = some RoleEntry.refRole := by
    intro s0
    unfold stageDomains
    refine foldl_establish
      (fun s => findRole s nm = some RoleEntry.refRole ∧
        findRole s (d.name ++ ":" ++ nm) = some RoleEntry.refRole)
      registerDomain _ d
      (fun s b _ hp => ⟨refRole_pres_registerDomain b s nm hp.1,
        refRole_pres_registerDomain b s _ hp.2⟩)
      (fun s1 => ?_) hd s0
    unfold registerDomain
    have htrans : ∀ s2 : RegState, ∀ k : String,
        findRole
          (d.directives.foldl (fun s p => add_directive (d.name ++ ":" ++ p.1) p.2 none true s)
            s2) k = findRole s2 k :=
      fun s2 k => foldl_proj_eq (fun s => findRole s k)
        (fun s p => add_directive (d.name ++ ":" ++ p.1) p.2 none true s) d.directives
        (fun _ _ _ => rfl) s2
    dsimp only
    rw [htrans, htrans]
    refine foldl_establish
      (fun s => findRole s nm = some RoleEntry.refRole ∧
        findRole s (d.name ++ ":" ++ nm) = some RoleEntry.refRole)
      (fun s p => registerDomainRole d.name s p) d.roles (nm, rc)
      (fun s b _ hp => ⟨refRole_pres_domainRole d.name b s nm hp.1,
        refRole_pres_domainRole d.name b s _ hp.2⟩)
      (fun s2 => refRole_est_domainRole d.name nm rc href s2) hr s1
  unfold register
  have hmid := hdom (stageStdRoles s)
  have hroles_eq : ∀ k : String,
      findRole
        (stageAutodoc env (stageSphinxFixed env (stageBaseRegistry env
          (stageRoleDirective env (stagePyDefault env (stageDomains env (stageStdRoles s)))))))
        k = findRole (stageDomains env (stageStdRoles s)) k := by
    intro k
    simp only [findRole, roles_stageAutodoc, roles_stageSphinxFixed, roles_stageBaseRegistry,
      roles_stageRoleDirective, roles_stagePyDefault]
  exact ⟨refRole_pres_stageOptionalPkgs env _ nm (by rw [hroles_eq]; exact hmid.1),
    refRole_pres_stageOptionalPkgs env _ _ (by rw [hroles_eq]; exact hmid.2)⟩

/-! ## Register-level composites -/

/-- A directive of a walked domain is registered under its domain-qualified
name in the final registry. -/
theorem domainDirective_registered (env : Env) (s : RegState) (d : Domain) (nm : String)
    (cls : DirClass) (hd : d ∈ subclassesList env.domainRoots)
    (hmem : (nm, cls) ∈ d.directives) :
    (findDirective (register env s) (d.name ++ ":" ++ nm)).isSome = true := by
  unfold register
  refine isSome_afterDomains env _ _ ?_
  unfold stageDomains
  refine foldl_establish (fun s => (findDirective s (d.name ++ ":" ++ nm)).isSome = true)
    registerDomain _ d (fun s b _ hp => isSome_registerDomain b s _ hp) (fun s1 => ?_) hd _
  unfold registerDomain
  refine foldl_establish (fun s => (findDirective s (d.name ++ ":" ++ nm)).isSome = true)
    (fun s p => add_directive (d.name ++ ":" ++ p.1) p.2 none true s) d.directives (nm, cls)
    (fun s b _ hp => isSome_add _ _ _ _ _ _ hp) (fun s2 => ?_) hmem _
  dsimp only
  rw [findDirective_add]
  simp

/-- A name no stage of `register` registers is looked up unchanged. -/
theorem register_untouched (env : Env) (n : String) (hn : n ∉ allDirectiveNames env)
    (s : RegState) :
    findDirective (register env s) n = findDirective s n := by
  simp only [allDirectiveNames, lateDirectiveNames, List.mem_append, not_or, and_assoc] at hn
  obtain ⟨hdom, hpy, hrole, hbase, hfixed, hauto, hopt⟩ := hn
  unfold register
  rw [stageOptionalPkgs_untouched env n hopt, stageAutodoc_untouched env n hauto,
    stageSphinxFixed_untouched env n hfixed, stageBaseRegistry_untouched env n hbase,
    stageRoleDirective_untouched env n (fun h => hrole (List.mem_singleton.mpr h)),
    stagePyDefault_untouched env n hpy, stageDomains_untouched env n hdom,
    stdRoles_directives]

/-- The last base-registry entry for a non-excluded name decides the lookup
after the base loop, and its `raw` flag is the complement of membership in the
static classification set. -/
theorem baseFold_mem (l : List (String × DirClass)) (n : String) :
    ∀ s : RegState,
      n ∈ (l.map Prod.fst).filter (fun m => !(exclude_directives.contains m)) →
      ∃ cls, findDirective (l.foldl baseStep s) n =
        some (interceptDirective cls none (!(non_raw_directives.contains n))) := by
  induction l with
  | nil =>
    intro s h
    simp at h
  | cons p t ih =>
    intro s h
    rw [List.foldl_cons]
    by_cases ht : n ∈ (t.map Prod.fst).filter (fun m => !(exclude_directives.contains m))
    · exact ih (baseStep s p) ht
    · have hnp : n = p.1 ∧ p.1 ∉ exclude_directives := by
        rcases List.mem_filter.mp h with ⟨hmem, hflt⟩
        have hmem2 : n = p.1 ∨ n ∈ t.map Prod.fst := by
          simpa [List.mem_cons] using hmem
        rcases hmem2 with heq | hmem3
        · refine ⟨heq, fun hc => ?_⟩
          rw [heq] at hflt
          simp [hc] at hflt
        · exact absurd (List.mem_filter.mpr ⟨hmem3, hflt⟩) ht
      obtain ⟨heq, hexc⟩ := hnp
      subst heq
      have hstep : baseStep s p =
          add_directive p.1 p.2 none (!(non_raw_directives.contains p.1)) s := by
        simp [baseStep, hexc]
      rw [hstep, baseFold_untouched t p.1 ht, findDirective_add]
      exact ⟨p.2, by simp⟩

/-- A hit `_add_optional_directive` probe registers its passthrough with the
defaults. -/
theorem add_optional_hit (dn c m : String) (env : Env) (module : String → Option DirClass)
    (cls : DirClass) (h1 : env.modules m = some module) (h2 : module c = some cls)
    (s : RegState) :
    findDirective (add_optional_directive dn c m env s) dn =
      some (interceptDirective cls none true) := by
  simp [add_optional_directive, h1, h2, findDirective_add]

theorem eq_of_mem_optProbe (dn c m : String) (env : Env) (n : String)
    (h : n ∈ optProbeNames dn c m env) : n = dn := by
  unfold optProbeNames at h
  split at h
  · cases h
  · split at h
    · cases h
    · simpa using h

theorem mem_tabsNames (env : Env) (n : String) (h : n ∈ tabsNames env) :
    n = "tabs" ∨ n = "tab" ∨ n = "group-tab" ∨ n = "code-tab" := by
  unfold tabsNames at h
  split at h
  · cases h
  · simpa using h

theorem mem_clickNames (env : Env) (n : String) (h : n ∈ clickNames env) : n = "click" := by
  unfold clickNames at h
  split at h
  · cases h
  · simpa using h

theorem mem_argparseNames (env : Env) (n : String) (h : n ∈ argparseNames env) :
    n = "argparse" := by
  unfold argparseNames at h
  split at h
  · cases h
  · simpa using h

theorem mem_espDirectiveNames (env : Env) (n : String) (h : n ∈ espDirectiveNames env) :
    n = "include-build-file" ∨ n = "list" := by
  unfold espDirectiveNames at h
  split at h
  · cases h
  · simpa using h

/-- After a successful `sphinxcontrib.blockdiag` import that locates the
`Blockdiag` class, the final registry maps `blockdiag` to its passthrough. -/
theorem blockdiag_registered (env : Env) (module : String → Option DirClass) (cls : DirClass)
    (h1 : env.modules "sphinxcontrib.blockdiag" = some module)
    (h2 : module "Blockdiag" = some cls) (s : RegState) :
    findDirective (register env s) "blockdiag" = some (interceptDirective cls none true) := by
  unfold register stageOptionalPkgs
  rw [add_optional_untouched _ _ _ env _
      (fun hm => absurd (eq_of_mem_optProbe _ _ _ env _ hm) (by decide)),
    add_optional_untouched _ _ _ env _
      (fun hm => absurd (eq_of_mem_optProbe _ _ _ env _ hm) (by decide)),
    add_optional_untouched _ _ _ env _
      (fun hm => absurd (eq_of_mem_optProbe _ _ _ env _ hm) (by decide)),
    add_optional_untouched _ _ _ env _
      (fun hm => absurd (eq_of_mem_optProbe _ _ _ env _ hm) (by decide)),
    add_optional_untouched _ _ _ env _
      (fun hm => absurd (eq_of_mem_optProbe _ _ _ env _ hm) (by decide)),
    add_optional_untouched _ _ _ env _
      (fun hm => absurd (eq_of_mem_optProbe _ _ _ env _ hm) (by decide))]
  exact add_optional_hit _ _ _ env module cls h1 h2 _

/-- After a successful `sphinxcontrib.packetdiag` probe, the final registry
maps `packetdiag` to its passthrough. -/
theorem packetdiag_registered (env : Env) (module : String → Option DirClass) (cls : DirClass)
    (h1 : env.modules "sphinxcontrib.packetdiag" = some module)
    (h2 : module "Packetdiag" = some cls) (s : RegState) :
    findDirective (register env s) "packetdiag" = some (interceptDirective cls none true) := by
  unfold register stageOptionalPkgs
  rw [add_optional_untouched _ _ _ env _
      (fun hm => absurd (eq_of_mem_optProbe _ _ _ env _ hm) (by decide)),
    add_optional_untouched _ _ _ env _
      (fun hm => absurd (eq_of_mem_optProbe _ _ _ env _ hm) (by decide)),
    add_optional_untouched _ _ _ env _
      (fun hm => absurd (eq_of_mem_optProbe _ _ _ env _ hm) (by decide)),
    add_optional_untouched _ _ _ env _
      (fun hm => absurd (eq_of_mem_optProbe _ _ _ env _ hm) (by decide)),
    add_optional_untouched _ _ _ env _
      (fun hm => absurd (eq_of_mem_optProbe _ _ _ env _ hm) (by decide))]
  exact add_optional_hit _ _ _ env module cls h1 h2 _

/-- After a successful `sphinxcontrib.rackdiag` probe, the final registry maps
`rackdiag` to its passthrough. -/
theorem rackdiag_registered (env : Env) (module : String → Option DirClass) (cls : DirClass)
    (h1 : env.modules "sphinxcontrib.rackdiag" = some module)
    (h2 : module "Rackdiag" = some cls) (s : RegState) :
    findDirective (register env s) "rackdiag" = some (interceptDirective cls none true) := by
  unfold register stageOptionalPkgs
  rw [add_optional_untouched _ _ _ env _
      (fun hm => absurd (eq_of_mem_optProbe _ _ _ env _ hm) (by decide)),
    add_optional_untouched _ _ _ env _
      (fun hm => absurd (eq_of_mem_optProbe _ _ _ env _ hm) (by decide)),
    add_optional_untouched _ _ _ env _
      (fun hm => absurd (eq_of_mem_optProbe _ _ _ env _ hm) (by decide)),
    add_optional_untouched _ _ _ env _
      (fun hm => absurd (eq_of_mem_optProbe _ _ _ env _ hm) (by decide))]
  exact add_optional_hit _ _ _ env module cls h1 h2 _

/-- After a successful `sphinxcontrib.seqdiag` probe, the final registry maps
`seqdiag` to its passthrough. -/
theorem seqdiag_registered (env : Env) (module : String → Option DirClass) (cls : DirClass)
    (h1 : env.modules "sphinxcontrib.seqdiag" = some module)
    (h2 : module "Seqdiag" = some cls) (s : RegState) :
    findDirective (register env s) "seqdiag" = some (interceptDirective cls none true) := by
  unfold register stageOptionalPkgs
  rw [add_optional_untouched _ _ _ env _
      (fun hm => absurd (eq_of_mem_optProbe _ _ _ env _ hm) (by decide)),
    add_optional_untouched _ _ _ env _
      (fun hm => absurd (eq_of_mem_optProbe _ _ _ env _ hm) (by decide)),
    add_optional_untouched _ _ _ env _
      (fun hm => absurd (eq_of_mem_optProbe _ _ _ env _ hm) (by decide))]
  exact add_optional_hit _ _ _ env module cls h1 h2 _

/-- After a successful `sphinxcontrib.wavedrom` probe, the final registry maps
`wavedrom` to its passthrough. -/
theorem wavedrom_registered (env : Env) (module : String → Option DirClass) (cls : DirClass)
    (h1 : env.modules "sphinxcontrib.wavedrom" = some module)
    (h2 : module "WavedromDirective" = some cls) (s : RegState) :
    findDirective (register env s) "wavedrom" = some (interceptDirective cls none true) := by
  unfold register stageOptionalPkgs
  rw [add_optional_untouched _ _ _ env _
      (fun hm => absurd (eq_of_mem_optProbe _ _ _ env _ hm) (by decide)),
    add_optional_untouched _ _ _ env _
      (fun hm => absurd (eq_of_mem_optProbe _ _ _ env _ hm) (by decide))]
  exact add_optional_hit _ _ _ env module cls h1 h2 _

/-- After a successful `breathe.directives.class_like` probe, the final
registry maps `doxygenstruct` to its passthrough. -/
theorem doxygenstruct_registered (env : Env) (module : String → Option DirClass)
    (cls : DirClass) (h1 : env.modules "breathe.directives.class_like" = some module)
    (h2 : module "DoxygenClassDirective" = some cls) (s : RegState) :
    findDirective (register env s) "doxygenstruct" =
      some (interceptDirective cls none true) := by
  unfold register stageOptionalPkgs
  rw [add_optional_untouched _ _ _ env _
      (fun hm => absurd (eq_of_mem_optProbe _ _ _ env _ hm) (by decide))]
  exact add_optional_hit _ _ _ env module cls h1 h2 _

/-- After a successful `breathe.directives.function` probe, the final registry
maps `doxygenfunction` to its passthrough. -/
theorem doxygenfunction_registered (env : Env) (module : String → Option DirClass)
    (cls : DirClass) (h1 : env.modules "breathe.directives.function" = some module)
    (h2 : module "DoxygenFunctionDirective" = some cls) (s : RegState) :
    findDirective (register env s) "doxygenfunction" =
      some (interceptDirective cls none true) := by
  unfold register stageOptionalPkgs
  exact add_optional_hit _ _ _ env module cls h1 h2 _

/-- Any successful probe from the source's probe table ends with its directive
name mapped to the class's passthrough in the final registry. -/
theorem probe_registered (env : Env) (s : RegState) (p : String × String × String)
    (hp : p ∈ probeTriples) (module : String → Option DirClass) (cls : DirClass)
    (h1 : env.modules p.2.2 = some module) (h2 : module p.2.1 = some cls) :
    findDirective (register env s) p.1 = some (interceptDirective cls none true) := by
  simp only [probeTriples, List.mem_cons, List.not_mem_nil, or_false] at hp
  rcases hp with rfl | rfl | rfl | rfl | rfl | rfl | rfl
  · exact blockdiag_registered env module cls h1 h2 s
  · exact packetdiag_registered env module cls h1 h2 s
  · exact rackdiag_registered env module cls h1 h2 s
  · exact seqdiag_registered env module cls h1 h2 s
  · exact wavedrom_registered env module cls h1 h2 s
  · exact doxygenstruct_registered env module cls h1 h2 s
  · exact doxygenfunction_registered env module cls h1 h2 s

/-- Directive lookups pass unchanged through the `esp_docs` role
registrations. -/
theorem findDirective_espRolesFold (s : RegState) (n : String) :
    findDirective
      (espRoleNames.foldl (fun s r => register_canonical_role r RoleEntry.refRole s) s) n =
      findDirective s n :=
  foldl_proj_eq (fun s => findDirective s n)
    (fun s r => register_canonical_role r RoleEntry.refRole s) espRoleNames
    (fun _ _ _ => rfl) s

/-- Role lookups pass unchanged through an import probe. -/
theorem findRole_probe (dn c m : String) (env : Env) (s : RegState) (n : String) :
    findRole (add_optional_directive dn c m env s) n = findRole s n := by
  simp [findRole, roles_add_optional]

/-- With `esp_docs` absent, the whole optional section (and every other stage
after the domain walk) writes no role: the final role registry is the one the
domain walk left. -/
theorem roles_register_no_esp (env : Env) (s : RegState) (hesp : env.espDocs = none) :
    (register env s).roles = (stageDomains env (stageStdRoles s)).roles := by
  unfold register stageOptionalPkgs
  rw [roles_add_optional, roles_add_optional, roles_add_optional, roles_add_optional,
    roles_add_optional, roles_add_optional, roles_add_optional,
    show ∀ s0 : RegState, (installEspDocs env s0).roles = s0.roles from fun s0 => by
      simp [installEspDocs, hesp],
    roles_installSphinxarg, roles_installSphinxClick, roles_installSphinxTabs,
    roles_stageAutodoc, roles_stageSphinxFixed, roles_stageBaseRegistry,
    roles_stageRoleDirective, roles_stagePyDefault]

/-- With `sphinx_tabs` present, all four of its declared directive names are
registered with the source's `raw` flags. -/
theorem tabs_registered (env : Env) (s : RegState) (pkg : SphinxTabsPkg)
    (htabs : env.sphinxTabs = some pkg) :
    findDirective (register env s) "tabs" =
      some (interceptDirective pkg.tabsDirective none false) ∧
    findDirective (register env s) "tab" =
      some (interceptDirective pkg.tabDirective none false) ∧
    findDirective (register env s) "group-tab" =
      some (interceptDirective pkg.groupTabDirective none false) ∧
    findDirective (register env s) "code-tab" =
      some (interceptDirective pkg.codeTabDirective none true) := by
  refine ⟨?_, ?_, ?_, ?_⟩ <;>
  · unfold register stageOptionalPkgs
    rw [add_optional_untouched _ _ _ env _
        (fun hm => absurd (eq_of_mem_optProbe _ _ _ env _ hm) (by decide)),
      add_optional_untouched _ _ _ env _
        (fun hm => absurd (eq_of_mem_optProbe _ _ _ env _ hm) (by decide)),
      add_optional_untouched _ _ _ env _
        (fun hm => absurd (eq_of_mem_optProbe _ _ _ env _ hm) (by decide)),
      add_optional_untouched _ _ _ env _
        (fun hm => absurd (eq_of_mem_optProbe _ _ _ env _ hm) (by decide)),
      add_optional_untouched _ _ _ env _
        (fun hm => absurd (eq_of_mem_optProbe _ _ _ env _ hm) (by decide)),
      add_optional_untouched _ _ _ env _
        (fun hm => absurd (eq_of_mem_optProbe _ _ _ env _ hm) (by decide)),
      add_optional_untouched _ _ _ env _
        (fun hm => absurd (eq_of_mem_optProbe _ _ _ env _ hm) (by decide)),
      installEspDocs_untouched env _
        (fun hm => by rcases mem_espDirectiveNames env _ hm with h | h <;>
          exact absurd h (by decide)),
      installSphinxarg_untouched env _
        (fun hm => absurd (mem_argparseNames env _ hm) (by decide)),
      installSphinxClick_untouched env _
        (fun hm => absurd (mem_clickNames env _ hm) (by decide))]
    simp [installSphinxTabs, htabs, findDirective_add]

/-- With `sphinx_click` present, its declared directive name `click` is
registered. -/
theorem click_registered (env : Env) (s : RegState) (cls : DirClass)
    (hclick : env.sphinxClick = some cls) :
    findDirective (register env s) "click" = some (interceptDirective cls none true) := by
  unfold register stageOptionalPkgs
  rw [add_optional_untouched _ _ _ env _
      (fun hm => absurd (eq_of_mem_optProbe _ _ _ env _ hm) (by decide)),
    add_optional_untouched _ _ _ env _
      (fun hm => absurd (eq_of_mem_optProbe _ _ _ env _ hm) (by decide)),
    add_optional_untouched _ _ _ env _
      (fun hm => absurd (eq_of_mem_optProbe _ _ _ env _ hm) (by decide)),
    add_optional_untouched _ _ _ env _
      (fun hm => absurd (eq_of_mem_optProbe _ _ _ env _ hm) (by decide)),
    add_optional_untouched _ _ _ env _
      (fun hm => absurd (eq_of_mem_optProbe _ _ _ env _ hm) (by decide)),
    add_optional_untouched _ _ _ env _
      (fun hm => absurd (eq_of_mem_optProbe _ _ _ env _ hm) (by decide)),
    add_optional_untouched _ _ _ env _
      (fun hm => absurd (eq_of_mem_optProbe _ _ _ env _ hm) (by decide)),
    installEspDocs_untouched env _
      (fun hm => by rcases mem_espDirectiveNames env _ hm with h | h <;>
        exact absurd h (by decide)),
    installSphinxarg_untouched env _
      (fun hm => absurd (mem_argparseNames env _ hm) (by decide))]
  simp [installSphinxClick, hclick, findDirective_add]

/-- With `sphinxarg.ext` present, its declared directive name `argparse` is
registered. -/
theorem argparse_registered (env : Env) (s : RegState) (cls : DirClass)
    (harg : env.sphinxarg = some cls) :
    findDirective (register env s) "argparse" = some (interceptDirective cls none true) := by
  unfold register stageOptionalPkgs
  rw [add_optional_untouched _ _ _ env _
      (fun hm => absurd (eq_of_mem_optProbe _ _ _ env _ hm) (by decide)),
    add_optional_untouched _ _ _ env _
      (fun hm => absurd (eq_of_mem_optProbe _ _ _ env _ hm) (by decide)),
    add_optional_untouched _ _ _ env _
      (fun hm => absurd (eq_of_mem_optProbe _ _ _ env _ hm) (by decide)),
    add_optional_untouched _ _ _ env _
      (fun hm => absurd (eq_of_mem_optProbe _ _ _ env _ hm) (by decide)),
    add_optional_untouched _ _ _ env _
      (fun hm => absurd (eq_of_mem_optProbe _ _ _ env _ hm) (by decide)),
    add_optional_untouched _ _ _ env _
      (fun hm => absurd (eq_of_mem_optProbe _ _ _ env _ hm) (by decide)),
    add_optional_untouched _ _ _ env _
      (fun hm => absurd (eq_of_mem_optProbe _ _ _ env _ hm) (by decide)),
    installEspDocs_untouched env _
      (fun hm => by rcases mem_espDirectiveNames env _ hm with h | h <;>
        exact absurd h (by decide))]
  simp [installSphinxarg, harg, findDirective_add]

/-- With `esp_docs` present, both of its declared directive names are
registered. -/
theorem esp_registered (env : Env) (s : RegState) (pkg : EspDocsPkg)
    (hesp : env.espDocs = some pkg) :
    findDirective (register env s) "include-build-file" =
      some (interceptDirective pkg.includeBuildFile none true) ∧
    findDirective (register env s) "list" =
      some (interceptDirective pkg.listFilter none true) := by
  refine ⟨?_, ?_⟩ <;>
  · unfold register stageOptionalPkgs
    rw [add_optional_untouched _ _ _ env _
        (fun hm => absurd (eq_of_mem_optProbe _ _ _ env _ hm) (by decide)),
      add_optional_untouched _ _ _ env _
        (fun hm => absurd (eq_of_mem_optProbe _ _ _ env _ hm) (by decide)),
      add_optional_untouched _ _ _ env _
        (fun hm => absurd (eq_of_mem_optProbe _ _ _ env _ hm) (by decide)),
      add_optional_untouched _ _ _ env _
        (fun hm => absurd (eq_of_mem_optProbe _ _ _ env _ hm) (by decide)),
      add_optional_untouched _ _ _ env _
        (fun hm => absurd (eq_of_mem_optProbe _ _ _ env _ hm) (by decide)),
      add_optional_untouched _ _ _ env _
        (fun hm => absurd (eq_of_mem_optProbe _ _ _ env _ hm) (by decide)),
      add_optional_untouched _ _ _ env _
        (fun hm => absurd (eq_of_mem_optProbe _ _ _ env _ hm) (by decide))]
    simp [installEspDocs, hesp, findDirective_add, findDirective_espRolesFold]

/-- With `esp_docs` present, every one of its thirteen declared role names is
registered as a reference-role passthrough in the final registry. -/
theorem esp_roles_registered (env : Env) (pkg : EspDocsPkg) (hesp : env.espDocs = some pkg)
    (s : RegState) (r : String) (hr : r ∈ espRoleNames) :
    findRole (register env s) r = some RoleEntry.refRole := by
  unfold register stageOptionalPkgs
  rw [findRole_probe, findRole_probe, findRole_probe, findRole_probe, findRole_probe,
    findRole_probe, findRole_probe]
  simp only [installEspDocs, hesp]
  rw [findRole_add, findRole_add]
  exact foldl_establish (fun s => findRole s r = some RoleEntry.refRole)
    (fun s r2 => register_canonical_role r2 RoleEntry.refRole s) espRoleNames r
    (fun s b _ hp => refRole_pres_register b r s hp)
    (fun s2 => by dsimp only; rw [findRole_register]; simp) hr _

/-! ## String helpers for the bespoke `role` registration -/

theorem auto_append_ne_role (t : String) : ("auto" ++ t) ≠ "role" := by
  intro h
  have h2 : ("auto" ++ t).data = "role".data := by rw [h]
  rw [String.data_append] at h2
  have h3 : ("auto" : String).data = String.data "auto" := rfl
  rw [show ("auto" : String).data = [Char.ofNat 97, Char.ofNat 117, Char.ofNat 116,
      Char.ofNat 111] from rfl,
    show ("role" : String).data = [Char.ofNat 114, Char.ofNat 111, Char.ofNat 108,
      Char.ofNat 101] from rfl] at h2
  simp only [List.cons_append, List.cons.injEq] at h2
  exact absurd h2.1 (by decide)

theorem role_notMem_autoNames (env : Env) : "role" ∉ autoNames env := by
  intro h
  rcases List.mem_filterMap.mp h with ⟨t, _, hf⟩
  by_cases hobj : (t == "object") = true
  · simp [hobj] at hf
  · simp only [hobj] at hf
    simp only [Bool.false_eq_true, if_false, Option.some.injEq] at hf
    exact auto_append_ne_role t hf

theorem role_notMem_baseLoopNames (env : Env) : "role" ∉ baseLoopNames env := by
  intro h
  have h2 := (List.mem_filter.mp h).2
  simp [exclude_directives] at h2

theorem role_notMem_optionalNames (env : Env) : "role" ∉ optionalDirectiveNames env := by
  intro h
  simp only [optionalDirectiveNames, probeNames, List.mem_append, or_assoc] at h
  rcases h with h | h | h | h | h | h | h | h | h | h | h
  · exact absurd (mem_tabsNames env _ h) (by decide)
  · exact absurd (mem_clickNames env _ h) (by decide)
  · exact absurd (mem_argparseNames env _ h) (by decide)
  · rcases mem_espDirectiveNames env _ h with h2 | h2 <;> exact absurd h2 (by decide)
  · exact absurd (eq_of_mem_optProbe _ _ _ env _ h) (by decide)
  · exact absurd (eq_of_mem_optProbe _ _ _ env _ h) (by decide)
  · exact absurd (eq_of_mem_optProbe _ _ _ env _ h) (by decide)
  · exact absurd (eq_of_mem_optProbe _ _ _ env _ h) (by decide)
  · exact absurd (eq_of_mem_optProbe _ _ _ env _ h) (by decide)
  · exact absurd (eq_of_mem_optProbe _ _ _ env _ h) (by decide)
  · exact absurd (eq_of_mem_optProbe _ _ _ env _ h) (by decide)

/-- The bespoke `role` registration survives every later stage: the final
registry maps `role` to the interceptor built on the `Directive` base class
with the `required_arguments` override. -/
theorem role_directive_final (env : Env) (s : RegState) :
    findDirective (register env s) "role" =
      some (interceptDirective env.directiveBase (some 1) true) := by
  unfold register
  rw [stageOptionalPkgs_untouched env _ (role_notMem_optionalNames env),
    stageAutodoc_untouched env _ (role_notMem_autoNames env),
    stageSphinxFixed_untouched env _ (by decide),
    stageBaseRegistry_untouched env _ (role_notMem_baseLoopNames env)]
  unfold stageRoleDirective
  rw [findDirective_add]
  simp

/-! ## Helpers for the default-raw invariant (C9) -/

theorem raw_true_foldl {α : Type _} (f : RegState → α → RegState) (l : List α)
    (h : ∀ (s : RegState) (a : α), a ∈ l →
      ∃ new, (f s a).directives = new ++ s.directives ∧ ∀ p ∈ new, (p.2).raw = true) :
    ∀ s : RegState, ∃ new, (l.foldl f s).directives = new ++ s.directives ∧
      ∀ p ∈ new, (p.2).raw = true := by
  induction l with
  | nil => intro s; exact ⟨[], by simp, by simp⟩
  | cons x xs ih =>
    intro s
    obtain ⟨n1, h1, hr1⟩ := h s x (List.mem_cons_self x xs)
    obtain ⟨n2, h2, hr2⟩ := ih (fun s a ha => h s a (List.mem_cons_of_mem x ha)) (f s x)
    refine ⟨n2 ++ n1, ?_, ?_⟩
    · rw [List.foldl_cons, h2, h1, List.append_assoc]
    · intro p hp
      rcases List.mem_append.mp hp with hh | hh
      · exact hr2 p hh
      · exact hr1 p hh

theorem raw_true_registerDomain (d : Domain) :
    ∀ s : RegState, ∃ new, (registerDomain s d).directives = new ++ s.directives ∧
      ∀ p ∈ new, (p.2).raw = true := by
  intro s
  unfold registerDomain
  have hroles :
      (d.roles.foldl (fun s p => registerDomainRole d.name s p) s).directives =
        s.directives :=
    foldl_proj_eq RegState.directives (fun s p => registerDomainRole d.name s p) d.roles
      (fun s p _ => directives_registerDomainRole d.name s p) s
  obtain ⟨new, hnew, hraw⟩ := raw_true_foldl
    (fun s p => add_directive (d.name ++ ":" ++ p.1) p.2 none true s) d.directives
    (fun s p _ => ⟨[(d.name ++ ":" ++ p.1, interceptDirective p.2 none true)], rfl,
      fun q hq => by rcases List.mem_singleton.mp hq with rfl; rfl⟩) _
  exact ⟨new, by rw [hnew, hroles], hraw⟩

/-! ## Claim theorems -/

/-- C1 counterexample: a domain role whose callable is not a reference-resolving
role is cataloged by the walker but has no passthrough registration of any kind
after `register` runs — the claimed totality fails for such roles. -/
theorem walker_role_gap :
    ("plainrole", ({ isReferenceRole := false } : RoleCallable)) ∈ plainRoleDomain.roles ∧
    plainRoleDomain ∈ subclassesList envPlainRole.domainRoots ∧
    findRole (register envPlainRole emptyReg) "plainrole" = none ∧
    findDirective (register envPlainRole emptyReg) "plainrole" = none := by
  refine ⟨by decide, ?_, ?_, ?_⟩
  · rw [show subclassesList envPlainRole.domainRoots = [plainRoleDomain] from by
      simp [envPlainRole, baseEnv, subclassesList]]
    exact List.mem_singleton.mpr rfl
  · simp [register, stageOptionalPkgs, stageAutodoc, stageSphinxFixed, stageBaseRegistry,
      stageRoleDirective, stagePyDefault, stageDomains, stageStdRoles, registerDomain,
      registerDomainRole, installEspDocs, installSphinxarg, installSphinxClick,
      installSphinxTabs, add_optional_directive, add_directive, register_directive,
      register_canonical_role, baseStep, standardRoles, espRoleNames, envPlainRole, baseEnv,
      plainRoleDomain, subclassesList, findRole, findDirective, List.lookup, emptyReg]
  · simp [register, stageOptionalPkgs, stageAutodoc, stageSphinxFixed, stageBaseRegistry,
      stageRoleDirective, stagePyDefault, stageDomains, stageStdRoles, registerDomain,
      registerDomainRole, installEspDocs, installSphinxarg, installSphinxClick,
      installSphinxTabs, add_optional_directive, add_directive, register_directive,
      register_canonical_role, baseStep, standardRoles, espRoleNames, envPlainRole, baseEnv,
      plainRoleDomain, subclassesList, findRole, findDirective, List.lookup, emptyReg]

/-- C1 (amended): after `register` runs, every directive cataloged by the
domain walker has a passthrough registration under its domain-qualified name,
and every cataloged domain role whose callable is a reference-resolving role
has a passthrough registration under its bare and domain-qualified names;
cataloged roles whose callable is not reference-resolving are skipped by the
walker loop. -/
theorem walker_totality (env : Env) (s : RegState) (d : Domain)
    (hd : d ∈ subclassesList env.domainRoots) :
    (∀ nm cls, (nm, cls) ∈ d.directives →
      (findDirective (register env s) (d.name ++ ":" ++ nm)).isSome = true) ∧
    (∀ nm rc, (nm, rc) ∈ d.roles → rc.isReferenceRole = true →
      (findRole (register env s) nm).isSome = true ∧
      (findRole (register env s) (d.name ++ ":" ++ nm)).isSome = true) :=
  ⟨fun nm cls hmem => domainDirective_registered env s d nm cls hd hmem,
   fun nm rc hmem href =>
     ⟨by rw [(refRole_registered env s d nm rc hd hmem href).1]; rfl,
      by rw [(refRole_registered env s d nm rc hd hmem href).2]; rfl⟩⟩

/-- Witness for C1 (amended) at a concrete environment with one domain holding
one directive and one reference-resolving role. -/
theorem walker_totality_witness :
    (findDirective (register envWalk emptyReg) ("dom" ++ ":" ++ "obj")).isSome = true ∧
    (findRole (register envWalk emptyReg) "xref").isSome = true := by
  have hd : walkDomain ∈ subclassesList envWalk.domainRoots := by
    rw [show subclassesList envWalk.domainRoots = [walkDomain] from by
      simp [envWalk, baseEnv, subclassesList]]
    exact List.mem_singleton.mpr rfl
  have h := walker_totality envWalk emptyReg walkDomain hd
  exact ⟨h.1 "obj" trivialCls (List.mem_singleton.mpr rfl),
    (h.2 "xref" { isReferenceRole := true } (List.mem_singleton.mpr rfl) rfl).1⟩

/-- C2: the synthesized directive's `run` returns exactly a one-element list
holding the passthrough node wrapping the parsed invocation, and its value does
not depend on the original class's `run` method (so the original semantic
expansion never executes). -/
theorem run_is_passthrough (cls : DirClass) (attrs : Option Nat) (raw : Bool)
    (st : ParseState) (r : ParseState → List Node) :
    (interceptDirective cls attrs raw).run st = [Node.directiveNode raw st] ∧
    (interceptDirective { cls with run := r } attrs raw).run st =
      (interceptDirective cls attrs raw).run st :=
  ⟨rfl, rfl⟩

/-- C3: every synthesized directive carries the relaxed option schema, the
relaxed schema accepts any option name and validates any value to itself, the
host option-parsing step therefore never fails and returns the options
unchanged, and the passthrough node still wraps the state carrying those
options. -/
theorem option_spec_relaxed (cls : DirClass) (attrs : Option Nat) (raw : Bool)
    (name v : String) (opts : List (String × String)) (st : ParseState) :
    (interceptDirective cls attrs raw).option_spec = DummyOptionSpec ∧
    (∃ f, DummyOptionSpec name = some f ∧ f v = some v) ∧
    parseOptions DummyOptionSpec opts = some opts ∧
    (interceptDirective cls attrs raw).run st = [Node.directiveNode raw st] := by
  refine ⟨rfl, ⟨fun x => some x, rfl, rfl⟩, ?_, rfl⟩
  induction opts with
  | nil => rfl
  | cons p rest ih => simp [parseOptions, DummyOptionSpec, ih]

/-- C4: a non-excluded name of the base-grammar registry that no later stage
re-registers ends up mapped to a passthrough whose `raw` flag is false exactly
when the name is in the static non-raw classification set. -/
theorem base_registry_raw_classification (env : Env) (s : RegState) (n : String)
    (hmem : n ∈ baseLoopNames env) (hlate : n ∉ lateDirectiveNames env) :
    ∃ cls, findDirective (register env s) n =
      some (interceptDirective cls none (!(non_raw_directives.contains n))) := by
  unfold register
  simp only [lateDirectiveNames, List.mem_append, not_or, and_assoc] at hlate
  obtain ⟨hfixed, hauto, hopt⟩ := hlate
  rw [stageOptionalPkgs_untouched env n hopt, stageAutodoc_untouched env n hauto,
    stageSphinxFixed_untouched env n hfixed]
  exact baseFold_mem env.baseRegistry n _ hmem

/-- Witness for C4: in an environment whose base registry holds `note`, the
final registration of `note` carries `raw = false`. -/
theorem base_registry_raw_witness :
    ∃ e, findDirective (register envNote emptyReg) "note" = some e ∧ e.raw = false := by
  obtain ⟨cls, h⟩ := base_registry_raw_classification envNote emptyReg "note"
    (by decide) (by decide)
  exact ⟨interceptDirective cls none (!(non_raw_directives.contains "note")), h, rfl⟩

/-- C5: invoking `generic_role` under any alias spelling of the alias table
yields a passthrough role node whose stored role name is the canonical
spelling from the table. -/
theorem alias_canonical (p : String × String) (hp : p ∈ role_aliases)
    (rawtext text : String) :
    generic_role p.1 rawtext text =
      ([Node.roleNode rawtext (unescapeRestoreBackslashes text) p.2], []) := by
  simp only [role_aliases, List.mem_cons, List.not_mem_nil, or_false] at hp
  rcases hp with rfl | rfl | rfl | rfl | rfl | rfl <;> rfl

/-- Witness for C5: invoking the role `pep` with text `8` yields a role node
with name `PEP` and content `8`. -/
theorem alias_canonical_witness :
    generic_role "pep" ":pep:`8`" "8" = ([Node.roleNode ":pep:`8`" "8" "PEP"], []) := by
  have h := alias_canonical ("pep", "PEP") (by decide) ":pep:`8`" "8"
  exact h.trans (by decide)

/-- C6: for every optional third-party package. Absence: a probe whose import
fails, or whose located module lacks the named class, is a silent no-op and
contributes no directive name; an absent `sphinx_tabs` / `sphinx_click` /
`sphinxarg` / `esp_docs` block contributes no directive name, and an absent
`esp_docs` additionally leaves the optional section writing no role at all;
any name no stage claims is looked up unchanged after `register` (which, being
total, always completes). Presence: an available package gets every one of its
declared directive names — and, for `esp_docs`, all thirteen role names —
registered as passthrough entries in the final registry, as does every
successful probe of the probe table. -/
theorem optional_package_probe (env : Env) (s : RegState) :
    (∀ dn c m : String, env.modules m = none →
      add_optional_directive dn c m env s = s ∧ optProbeNames dn c m env = []) ∧
    (∀ (dn c m : String) (module : String → Option DirClass),
      env.modules m = some module → module c = none →
      add_optional_directive dn c m env s = s ∧ optProbeNames dn c m env = []) ∧
    (env.sphinxTabs = none → tabsNames env = []) ∧
    (env.sphinxClick = none → clickNames env = []) ∧
    (env.sphinxarg = none → argparseNames env = []) ∧
    (env.espDocs = none → espDirectiveNames env = [] ∧
      (register env s).roles = (stageDomains env (stageStdRoles s)).roles) ∧
    (∀ n, n ∉ allDirectiveNames env →
      findDirective (register env s) n = findDirective s n) ∧
    (∀ pkg, env.sphinxTabs = some pkg →
      findDirective (register env s) "tabs" =
        some (interceptDirective pkg.tabsDirective none false) ∧
      findDirective (register env s) "tab" =
        some (interceptDirective pkg.tabDirective none false) ∧
      findDirective (register env s) "group-tab" =
        some (interceptDirective pkg.groupTabDirective none false) ∧
      findDirective (register env s) "code-tab" =
        some (interceptDirective pkg.codeTabDirective none true)) ∧
    (∀ cls, env.sphinxClick = some cls →
      findDirective (register env s) "click" = some (interceptDirective cls none true)) ∧
    (∀ cls, env.sphinxarg = some cls →
      findDirective (register env s) "argparse" = some (interceptDirective cls none true)) ∧
    (∀ pkg, env.espDocs = some pkg →
      findDirective (register env s) "include-build-file" =
        some (interceptDirective pkg.includeBuildFile none true) ∧
      findDirective (register env s) "list" =
        some (interceptDirective pkg.listFilter none true) ∧
      (∀ r ∈ espRoleNames, findRole (register env s) r = some RoleEntry.refRole)) ∧
    (∀ p ∈ probeTriples, ∀ (module : String → Option DirClass) (cls : DirClass),
      env.modules p.2.2 = some module → module p.2.1 = some cls →
      findDirective (register env s) p.1 = some (interceptDirective cls none true)) :=
  ⟨fun dn c m h =>
    ⟨by simp [add_optional_directive, h], by simp [optProbeNames, h]⟩,
   fun dn c m module h1 h2 =>
    ⟨by simp [add_optional_directive, h1, h2], by simp [optProbeNames, h1, h2]⟩,
   fun h => by simp [tabsNames, h],
   fun h => by simp [clickNames, h],
   fun h => by simp [argparseNames, h],
   fun h => ⟨by simp [espDirectiveNames, h], roles_register_no_esp env s h⟩,
   fun n hn => register_untouched env n hn s,
   fun pkg h => tabs_registered env s pkg h,
   fun cls h => click_registered env s cls h,
   fun cls h => argparse_registered env s cls h,
   fun pkg h => ⟨(esp_registered env s pkg h).1, (esp_registered env s pkg h).2,
     fun r hr => esp_roles_registered env pkg h s r hr⟩,
   fun p hp module cls h1 h2 => probe_registered env s p hp module cls h1 h2⟩

/-- Witness for C6: with every package absent, none of the optional names (a
representative from each package, roles included) is registered; with every
package present, each one's names resolve to their passthrough entries. -/
theorem optional_package_probe_witness :
    (findDirective (register baseEnv emptyReg) "tabs" = none ∧
     findDirective (register baseEnv emptyReg) "click" = none ∧
     findDirective (register baseEnv emptyReg) "argparse" = none ∧
     findDirective (register baseEnv emptyReg) "list" = none ∧
     findDirective (register baseEnv emptyReg) "blockdiag" = none ∧
     findRole (register baseEnv emptyReg) "project" = none) ∧
    (findDirective (register envAllOptional emptyReg) "tabs" =
       some (interceptDirective trivialCls none false) ∧
     findDirective (register envAllOptional emptyReg) "click" =
       some (interceptDirective trivialCls none true) ∧
     findDirective (register envAllOptional emptyReg) "argparse" =
       some (interceptDirective trivialCls none true) ∧
     findDirective (register envAllOptional emptyReg) "list" =
       some (interceptDirective trivialCls none true) ∧
     findDirective (register envAllOptional emptyReg) "blockdiag" =
       some (interceptDirective trivialCls none true) ∧
     findRole (register envAllOptional emptyReg) "project" = some RoleEntry.refRole) := by
  obtain ⟨hA1, hA2, hA3, hA4, hA5, hA6, hA7, hP1, hP2, hP3, hP4, hP5⟩ :=
    optional_package_probe baseEnv emptyReg
  obtain ⟨gA1, gA2, gA3, gA4, gA5, gA6, gA7, gP1, gP2, gP3, gP4, gP5⟩ :=
    optional_package_probe envAllOptional emptyReg
  have habs : ∀ n : String, n ∉ allDirectiveNames baseEnv →
      findDirective (register baseEnv emptyReg) n = none :=
    fun n hn => (hA7 n hn).trans rfl
  have hnames : ∀ n : String, n ∈ (["tabs", "click", "argparse", "list",
      "blockdiag"] : List String) → n ∉ allDirectiveNames baseEnv := by
    intro n hn
    simp only [List.mem_cons, List.not_mem_nil, or_false] at hn
    have hall : allDirectiveNames baseEnv = ["role", "glossary", "literalinclude",
        "toctree", "versionadded", "only", "highlight", "todo"] := by
      simp [allDirectiveNames, domainDirectiveNames, baseLoopNames, lateDirectiveNames,
        sphinxFixedNames, autoNames, optionalDirectiveNames, tabsNames, clickNames,
        argparseNames, espDirectiveNames, probeNames, optProbeNames, baseEnv, subclassesList]
    rw [hall]
    rcases hn with rfl | rfl | rfl | rfl | rfl <;> decide
  refine ⟨⟨habs _ (hnames _ (by decide)), habs _ (hnames _ (by decide)),
      habs _ (hnames _ (by decide)), habs _ (hnames _ (by decide)),
      habs _ (hnames _ (by decide)), ?_⟩,
    (gP1 fullTabsPkg rfl).1, gP2 trivialCls rfl, gP3 trivialCls rfl,
    (gP4 fullEspPkg rfl).2.1,
    gP5 ("blockdiag", "Blockdiag", "sphinxcontrib.blockdiag") (by decide)
      (fun _ => some trivialCls) trivialCls rfl rfl,
    (gP4 fullEspPkg rfl).2.2 "project" (by decide)⟩
  have hroles := (hA6 rfl).2
  show (register baseEnv emptyReg).roles.lookup "project" = none
  rw [hroles]
  simp [stageDomains, stageStdRoles, standardRoles, register_canonical_role, baseEnv,
    subclassesList, emptyReg, List.lookup]

/-- C7: every role of a walked domain whose callable is a reference-resolving
role is registered, as a reference-role passthrough wrapper, under both its
bare name and its domain-qualified name. -/
theorem domain_ref_roles_registered (env : Env) (s : RegState) (d : Domain) (nm : String)
    (rc : RoleCallable) (hd : d ∈ subclassesList env.domainRoots) (hr : (nm, rc) ∈ d.roles)
    (href : rc.isReferenceRole = true) :
    findRole (register env s) nm = some RoleEntry.refRole ∧
    findRole (register env s) (d.name ++ ":" ++ nm) = some RoleEntry.refRole :=
  refRole_registered env s d nm rc hd hr href

/-- Witness for C7 at a concrete one-domain environment. -/
theorem domain_ref_roles_registered_witness :
    findRole (register envWalk emptyReg) "xref" = some RoleEntry.refRole ∧
    findRole (register envWalk emptyReg) ("dom" ++ ":" ++ "xref") = some RoleEntry.refRole := by
  have hd : walkDomain ∈ subclassesList envWalk.domainRoots := by
    rw [show subclassesList envWalk.domainRoots = [walkDomain] from by
      simp [envWalk, baseEnv, subclassesList]]
    exact List.mem_singleton.mpr rfl
  exact domain_ref_roles_registered envWalk emptyReg walkDomain "xref"
    { isReferenceRole := true } hd (List.mem_singleton.mpr rfl) rfl

/-- C8: the `role` directive is excluded from the generic base-grammar loop
(the loop leaves its registration untouched), and its final registration is
the bespoke interceptor built on the plain `Directive` base class with the
`required_arguments := 1` override, even though that base class declares zero
required arguments. -/
theorem role_directive_bespoke (env : Env) (s : RegState)
    (hbase : env.directiveBase.requiredArguments = 0) :
    "role" ∈ exclude_directives ∧
    (∀ s2 : RegState,
      findDirective (stageBaseRegistry env s2) "role" = findDirective s2 "role") ∧
    (∃ e, findDirective (register env s) "role" = some e ∧
      e.base = env.directiveBase ∧ e.requiredArguments = 1 ∧
      e.base.requiredArguments = 0 ∧
      (∀ st, e.run st = [Node.directiveNode e.raw st])) :=
  ⟨by decide,
   fun s2 => stageBaseRegistry_untouched env _ (role_notMem_baseLoopNames env) s2,
   ⟨interceptDirective env.directiveBase (some 1) true, role_directive_final env s,
     rfl, rfl, hbase, fun st => rfl⟩⟩

/-- Witness for C8 at a concrete environment whose `Directive` base class
declares zero arguments. -/
theorem role_directive_bespoke_witness :
    ∃ e, findDirective (register baseEnv emptyReg) "role" = some e ∧
      e.requiredArguments = 1 ∧ e.base.requiredArguments = 0 := by
  obtain ⟨-, -, e, h1, -, h3, h4, -⟩ := role_directive_bespoke baseEnv emptyReg rfl
  exact ⟨e, h1, h3, h4⟩

/-- C9: the directive registrations made with the Python default `raw=True` —
every domain-qualified directive of the walker loop, every unqualified default
`py`-domain directive, and every directive added through the optional-package
probe — all carry `raw = true`. -/
theorem default_raw_true :
    (∀ (dn c m : String) (env : Env) (s : RegState),
      ∃ new, (add_optional_directive dn c m env s).directives = new ++ s.directives ∧
        ∀ p ∈ new, (p.2).raw = true) ∧
    (∀ (env : Env) (s : RegState),
      ∃ new, (stageDomains env s).directives = new ++ s.directives ∧
        ∀ p ∈ new, (p.2).raw = true) ∧
    (∀ (env : Env) (s : RegState),
      ∃ new, (stagePyDefault env s).directives = new ++ s.directives ∧
        ∀ p ∈ new, (p.2).raw = true) := by
  refine ⟨fun dn c m env s => ?_, fun env s => ?_, fun env s => ?_⟩
  · cases h1 : env.modules m with
    | none => exact ⟨[], by simp [add_optional_directive, h1], by simp⟩
    | some module =>
      cases h2 : module c with
      | none => exact ⟨[], by simp [add_optional_directive, h1, h2], by simp⟩
      | some cls =>
        refine ⟨[(dn, interceptDirective cls none true)], ?_, ?_⟩
        · simp [add_optional_directive, h1, h2, add_directive, register_directive]
        · intro p hp
          rcases List.mem_singleton.mp hp with rfl
          rfl
  · unfold stageDomains
    exact raw_true_foldl registerDomain (subclassesList env.domainRoots)
      (fun s d _ => raw_true_registerDomain d s) s
  · unfold stagePyDefault
    exact raw_true_foldl (fun s p => add_directive p.1 p.2 none true s) env.pyDirectives
      (fun s p _ => ⟨[(p.1, interceptDirective p.2 none true)], by rfl,
        fun q hq => by rcases List.mem_singleton.mp hq with rfl; rfl⟩) s

/-- Witness for C9: a hit probe adds exactly one entry, with `raw = true`. -/
theorem default_raw_true_witness :
    ∃ new, (add_optional_directive "blockdiag" "Blockdiag" "sphinxcontrib.blockdiag"
      envBlockdiag emptyReg).directives = new ++ emptyReg.directives ∧
      ∀ p ∈ new, (p.2).raw = true :=
  default_raw_true.1 "blockdiag" "Blockdiag" "sphinxcontrib.blockdiag" envBlockdiag emptyReg

/-- C10: alias resolution in `generic_role` lowercases the invoked spelling
before the table lookup, so any case variant of an alias resolves to the
canonical form, while a spelling whose lowercase form has no alias entry is
stored with its original casing unchanged. -/
theorem generic_role_case_insensitive (r rawtext text c : String) :
    (role_aliases.lookup (strLower r) = some c →
      generic_role r rawtext text =
        ([Node.roleNode rawtext (unescapeRestoreBackslashes text) c], [])) ∧
    (role_aliases.lookup (strLower r) = none →
      generic_role r rawtext text =
        ([Node.roleNode rawtext (unescapeRestoreBackslashes text) r], [])) := by
  constructor
  · intro h
    simp [generic_role, h]
  · intro h
    simp [generic_role, h]

/-- Witness for C10: `PEP` and `Pep` resolve to the canonical `PEP`; a name
with no lowercase alias entry keeps its casing. -/
theorem generic_role_case_insensitive_witness :
    generic_role "PEP" "x" "8" = ([Node.roleNode "x" "8" "PEP"], []) ∧
    generic_role "Pep" "x" "8" = ([Node.roleNode "x" "8" "PEP"], []) ∧
    generic_role "MyRole" "x" "y" = ([Node.roleNode "x" "y" "MyRole"], []) := by
  refine ⟨?_, ?_, ?_⟩
  · exact ((generic_role_case_insensitive "PEP" "x" "8" "PEP").1 (by decide)).trans (by decide)
  · exact ((generic_role_case_insensitive "Pep" "x" "8" "PEP").1 (by decide)).trans (by decide)
  · exact ((generic_role_case_insensitive "MyRole" "x" "y" "MyRole").2 (by decide)).trans
      (by decide)

end RstExtras
